import Mathlib

/-!
Verification development for the agentic log parser.

This file gives a shallow embedding, in Lean 4, of the core of the
repository: the per-source template store (knowledge/template_store.py),
the conflict detector and learning engine (pipeline/learning.py), the
pure matching pass (pipeline/matching.py), and the phase-1 body of the
orchestrator loop (pipeline/orchestrator.py).  The Python regular
expression engine is external to the repository, so the development is
parameterised over an abstract engine: a type of compiled patterns
together with a compilation function (re.compile, returning none where
Python raises re.error / re.PatternError) and a full-match function
(re.Pattern.fullmatch, returning the groupdict on success).  All
theorems hold for every such engine, in particular for Python's.

Python mutable state is threaded explicitly: methods that mutate an
object become functions returning the updated value, and a Python
exception becomes an Except value paired with the state as mutated up
to the raise point.  Python dicts (insertion ordered) are modelled as
association lists whose update function overwrites in place and
appends fresh keys at the end, exactly like dict assignment.
-/

namespace AgenticParser

/-! ### Association lists: the model of Python's insertion-ordered dict -/

/-- Lookup in an association list: the value at the first matching key,
exactly like a Python dict read (keys are unique in lists built by
alistInsert). -/
def alistLookup (k : String) : List (String × α) → Option α
  | [] => none
  | (k', v) :: rest => if k' = k then some v else alistLookup k rest

/-- Python dict assignment d[k] = v: overwrite in place if the key
exists (keeping its position), else append at the end. -/
def alistInsert (k : String) (v : α) : List (String × α) → List (String × α)
  | [] => [(k, v)]
  | (k', v') :: rest => if k' = k then (k, v) :: rest else (k', v') :: alistInsert k v rest

/-- Python dict.pop(k, None): drop the entry for k if present. -/
def alistErase (k : String) : List (String × α) → List (String × α)
  | [] => []
  | (k', v') :: rest => if k' = k then rest else (k', v') :: alistErase k rest

/-- Python dict.setdefault(k, v): insert only when the key is absent. -/
def alistSetdefault (k : String) (v : α) (l : List (String × α)) : List (String × α) :=
  match alistLookup k l with
  | some _ => l
  | none => l ++ [(k, v)]

/-! ### Decimal rendering of ids (Python f-string "{n:04d}") and suffix parsing -/

/-- Decimal digit characters of a natural number, most significant first.
Fueled structural recursion standing for ordinary base-10 printing. -/
def natDecAux : Nat → Nat → List Char
  | 0, _ => []
  | fuel + 1, n =>
    if n < 10 then [Nat.digitChar n]
    else natDecAux fuel (n / 10) ++ [Nat.digitChar (n % 10)]

/-- Decimal rendering of a natural number (what Python's str / format emit). -/
def natDec (n : Nat) : String := ⟨natDecAux (n + 1) n⟩

/-- Python format spec "{n:04d}": left-pad the decimal rendering with
zeros to width 4; wider numbers are emitted unpadded. -/
def pad4 (n : Nat) : String :=
  ⟨List.replicate (4 - (natDec n).data.length) '0' ++ (natDec n).data⟩

/-- Value of a list of decimal digit characters (most significant first). -/
def digitsVal (l : List Char) : Nat :=
  l.foldl (fun acc c => acc * 10 + (c.toNat - 48)) 0

/-- The characters after the last dash of a string, or the whole string if
there is no dash: Python s.rsplit("-", 1)[-1]. -/
def afterLastDash (l : List Char) : List Char :=
  (l.reverse.takeWhile (fun c => c ≠ '-')).reverse

/-- Numeric suffix of a template id, modelling
int(template_id.rsplit("-", 1)[-1]): the digits after the last dash,
none when that part is empty or has a non-digit character. -/
def parseSuffix (s : String) : Option Nat :=
  let part := afterLastDash s.data
  if part ≠ [] ∧ part.all Char.isDigit then some (digitsVal part) else none

/-- Allocated id text: source id, a dash, the zero-padded sequence
(Python f-string "{source_id}-{sequence:04d}"). -/
def mkId (src : String) (n : Nat) : String := src ++ "-" ++ pad4 n

/-! ### Data model (utils/types.py, knowledge/template_store.py) -/

/-- ProcessedLogLine from utils/types.py: the raw line and its canonical
whitespace-normalized form. -/
structure ProcessedLogLine where
  raw : String
  transformed : String
deriving DecidableEq, Repr

/-- TemplateRecord from knowledge/template_store.py. -/
structure TemplateRecord where
  template_id : String
  source_id : String
  regex : String
  notes : String := ""
  is_active : Bool := true
deriving DecidableEq, Repr

/-- Python re.error (named re.PatternError since Python 3.13), raised by
re.compile on a malformed pattern; carries the offending pattern text. -/
structure PatternError where
  regex : String
deriving DecidableEq, Repr

/-- TemplateLibrary state from knowledge/template_store.py: the
insertion-ordered record dict, the compiled-matcher cache, and the id
sequence counter.  Pat is the abstract type of compiled patterns. -/
structure TemplateLibrary (Pat : Type) where
  source_id : String
  templates : List (String × TemplateRecord)
  compiled : List (String × Pat)
  sequence : Nat
deriving DecidableEq

/-- MatchResult from pipeline/matching.py; vars is the source's
"variables" field (that identifier is reserved in Lean). -/
structure MatchResult where
  line_number : Nat
  template_id : Option String
  vars : List (String × String)
  raw : String
deriving DecidableEq, Repr

section Engine

variable {Pat : Type}
variable (compile : String → Option Pat)
variable (fullmatch : Pat → String → Option (List (String × String)))

/-- TemplateLibrary.allocate_id: returns "(source_id)-(4-digit sequence)"
and advances the sequence counter. -/
def allocateId (lib : TemplateLibrary Pat) : String × TemplateLibrary Pat :=
  (mkId lib.source_id lib.sequence, { lib with sequence := lib.sequence + 1 })

/-- TemplateLibrary.add: allocate an id when the record's id is empty,
store the record in the dict, then compile its pattern into the cache.
Python executes the dict store before re.compile, so when compilation
raises, the returned library already holds the (uncompiled) record; the
Except value models the raised exception. -/
def addRecord (lib : TemplateLibrary Pat) (record : TemplateRecord) :
    TemplateLibrary Pat × Except PatternError TemplateRecord :=
  let assigned :=
    if record.template_id = "" then
      let (tid, lib') := allocateId lib
      ({ record with template_id := tid }, lib')
    else (record, lib)
  match assigned with
  | (record, lib) =>
    let lib := { lib with templates := alistInsert record.template_id record lib.templates }
    match compile record.regex with
    | some p =>
        ({ lib with compiled := alistInsert record.template_id p lib.compiled }, .ok record)
    | none => (lib, .error ⟨record.regex⟩)

/-- TemplateLibrary.deactivate: flip is_active to False when the id is
present, in place; silently do nothing when absent. -/
def deactivate (lib : TemplateLibrary Pat) (tid : String) : TemplateLibrary Pat :=
  { lib with
    templates := lib.templates.map fun pr =>
      if pr.1 = tid then (pr.1, { pr.2 with is_active := false }) else pr }

/-- Iteration body of TemplateLibrary.match over the record dict: skip
inactive records; fetch the compiled pattern from the cache, compiling
and caching it on a miss (where Python would raise re.error on a bad
stored pattern); return the first record whose pattern fully matches the
canonical text, with the captured group dict. -/
def matchGo (processed : ProcessedLogLine) :
    List (String × TemplateRecord) → TemplateLibrary Pat →
      TemplateLibrary Pat × Except PatternError (Option (TemplateRecord × List (String × String)))
  | [], lib => (lib, .ok none)
  | (tid, record) :: rest, lib =>
    if record.is_active then
      match alistLookup tid lib.compiled with
      | some pat =>
        match fullmatch pat processed.transformed with
        | some groups => (lib, .ok (some (record, groups)))
        | none => matchGo processed rest lib
      | none =>
        match compile record.regex with
        | none => (lib, .error ⟨record.regex⟩)
        | some pat =>
          let lib' := { lib with compiled := alistInsert tid pat lib.compiled }
          match fullmatch pat processed.transformed with
          | some groups => (lib', .ok (some (record, groups)))
          | none => matchGo processed rest lib'
    else matchGo processed rest lib

/-- TemplateLibrary.match. -/
def libMatch (lib : TemplateLibrary Pat) (processed : ProcessedLogLine) :
    TemplateLibrary Pat × Except PatternError (Option (TemplateRecord × List (String × String))) :=
  matchGo compile fullmatch processed lib.templates lib

/-- LearningEngine._detect_conflicts: compile the candidate (empty
conflict list if that fails), then collect, in insertion order, every
active record whose cached example line the candidate fully matches,
paired with that example's canonical text. -/
def detectConflicts (regex : String) (lib : TemplateLibrary Pat)
    (examples : List (String × ProcessedLogLine)) : List (TemplateRecord × String) :=
  match compile regex with
  | none => []
  | some p =>
    lib.templates.filterMap fun pr =>
      if pr.2.is_active then
        match alistLookup pr.1 examples with
        | some sample =>
          if (fullmatch p sample.transformed).isSome then some (pr.2, sample.transformed)
          else none
        | none => none
      else none

/-- Loop body of match_all from pipeline/matching.py, threading the
line index (enumerate starts at 1) and the library through each
library.match call; an exception aborts the loop. -/
def matchAllGo : Nat → List ProcessedLogLine → TemplateLibrary Pat →
    TemplateLibrary Pat × Except PatternError (List MatchResult)
  | _, [], lib => (lib, .ok [])
  | idx, line :: rest, lib =>
    match libMatch compile fullmatch lib line with
    | (lib', .error e) => (lib', .error e)
    | (lib', .ok m) =>
      let result : MatchResult :=
        match m with
        | some (record, captured) => ⟨idx, some record.template_id, captured, line.raw⟩
        | none => ⟨idx, none, [], line.raw⟩
      match matchAllGo (idx + 1) rest lib' with
      | (lib'', .error e) => (lib'', .error e)
      | (lib'', .ok results) => (lib'', .ok (result :: results))

/-- match_all from pipeline/matching.py. -/
def matchAll (lib : TemplateLibrary Pat) (lines : List ProcessedLogLine) :
    TemplateLibrary Pat × Except PatternError (List MatchResult) :=
  matchAllGo compile fullmatch 1 lines lib

/-- Loop body of TemplateLibrary._load: store and compile each record
(a malformed persisted pattern propagates as an exception), and raise
the sequence counter past every numeric id suffix, skipping ids whose
suffix does not parse. -/
def loadGo : List TemplateRecord → TemplateLibrary Pat →
    Except PatternError (TemplateLibrary Pat)
  | [], lib => .ok lib
  | r :: rs, lib =>
    match compile r.regex with
    | none => .error ⟨r.regex⟩
    | some p =>
      let lib1 := { lib with
        templates := alistInsert r.template_id r lib.templates,
        compiled := alistInsert r.template_id p lib.compiled }
      let lib2 :=
        match parseSuffix r.template_id with
        | some n => { lib1 with sequence := max lib1.sequence (n + 1) }
        | none => lib1
      loadGo rs lib2

/-- TemplateLibrary construction from a persisted snapshot: a fresh
library (sequence 1) fed through the _load loop. -/
def loadLib (src : String) (records : List TemplateRecord) :
    Except PatternError (TemplateLibrary Pat) :=
  loadGo compile records { source_id := src, templates := [], compiled := [], sequence := 1 }

end Engine

/-- Tab/newline scrubbing of the raw column in _write_outputs:
raw.replace("\t", " ").replace("\n", " ") (single-character
replacements, hence a character map). -/
def safeRaw (s : String) : String :=
  ⟨s.data.map fun c => if c = '\t' ∨ c = '\n' then ' ' else c⟩

/-- The structured TSV emitted by _write_outputs: header then one
"(line)\t(template_id or empty)\t(scrubbed raw)" row per result. -/
def renderRows (results : List MatchResult) : String :=
  "line\ttemplate_id\traw\n" ++
    String.join (results.map fun r =>
      natDec r.line_number ++ "\t" ++ r.template_id.getD "" ++ "\t" ++ safeRaw r.raw ++ "\n")

/-! ### Learning engine (pipeline/learning.py) and orchestrator phase-1 body -/

/-- Python str.strip(): drop leading and trailing whitespace. -/
def pyStrip (s : String) : String :=
  ⟨((s.data.dropWhile Char.isWhitespace).reverse.dropWhile Char.isWhitespace).reverse⟩

/-- TemplateProposal from agents/template_agent.py. -/
structure TemplateProposal where
  regex : String
  reasoning : String
deriving DecidableEq, Repr

/-- ValidationReport from agents/validation_agent.py. -/
structure ValidationReport where
  approved : Bool
  issues : List String
  suggestions : List String
  reasoning : String
deriving DecidableEq, Repr

/-- The adjudicator's decision dict as read by _apply_conflict_plan:
decision and new_regex are the .get results when they are strings (a
non-string new_regex behaves exactly like an absent one under the
isinstance check, and a non-string decision matches neither supported
value); reasoning defaults to ""; replaced_ids is the value after the
"or []" and list coercion applied in the replace branch. -/
structure ConflictPlan where
  decision : Option String
  new_regex : Option String
  reasoning : String
  replaced_ids : List String
deriving DecidableEq, Repr

/-- The plan part of an escalation payload: either the decision dict
attached verbatim, or the {"error": str(exc)} dict built when the
adjudication call raised. -/
inductive PlanField where
  | plan (p : ConflictPlan)
  | errorInfo (msg : String)
deriving DecidableEq, Repr

/-- Payload of an InteractionTask: _escalate attaches candidate, plan
and sample; update_agent.resolve_conflict's own failure task attaches
candidate, sample and the conflicting records. -/
inductive TaskPayload where
  | escalation (candidate : TemplateRecord) (plan : PlanField) (sample : String)
  | resolveFailure (candidate : TemplateRecord) (sample : String)
      (conflicts : List TemplateRecord)
deriving DecidableEq, Repr

/-- InteractionTask from interface/interaction_service.py. -/
structure InteractionTask where
  task_id : String
  task_type : String
  description : String
  payload : TaskPayload
  status : String := "pending"
  history : List String := []
deriving DecidableEq, Repr

/-- InteractionService state: the task queue and the task-id counter. -/
structure InteractionServiceState where
  queue : List InteractionTask
  counter : Nat
deriving DecidableEq, Repr

/-- InteractionService.enqueue. -/
def enqueue (svc : InteractionServiceState) (task_type description : String)
    (payload : TaskPayload) : InteractionServiceState :=
  { queue := svc.queue ++
      [{ task_id := "task-" ++ natDec svc.counter, task_type := task_type,
         description := description, payload := payload }],
    counter := svc.counter + 1 }

/-- PipelineCounters from knowledge/metrics.py. -/
structure PipelineCounters where
  processed_lines : Nat := 0
  matched_lines : Nat := 0
  learned_templates : Nat := 0
  escalations : Nat := 0
deriving DecidableEq, Repr

/-- LearningOutcome from pipeline/learning.py. -/
structure LearningOutcome where
  status : String
  template_id : Option String
  detail : String
deriving DecidableEq, Repr

/-- The external collaborators' behaviour for the one line being
processed: the proposal the template agent returns, the verdict the
validation agent returns for each pattern text it is shown (line and
context are fixed), and the repair / adjudication outcomes, where
.error msg stands for a raised AgentError.  Quantifying theorems over
this structure quantifies over every possible collaborator behaviour. -/
structure AgentOracle where
  derive : TemplateProposal
  review : String → ValidationReport
  refine : Except String String
  resolve : Except String ConflictPlan

/-- The mutable state the learning engine touches while processing one
line: the source's template library, the run's example cache, the
metrics counters and the interaction service. -/
structure EngineState (Pat : Type) where
  library : TemplateLibrary Pat
  examples : List (String × ProcessedLogLine)
  metrics : PipelineCounters
  service : InteractionServiceState
deriving DecidableEq

/-- Instrumentation: how many requests each collaborator received on
the executed path (derive / review / refine / resolve_conflict). -/
structure CallTrace where
  derives : Nat
  reviews : Nat
  refines : Nat
  resolves : Nat
deriving DecidableEq, Repr

/-- LearningEngine._escalate: bump the escalation counter and enqueue a
template_conflict task carrying the candidate, the plan payload and the
sample's canonical text. -/
def escalate {Pat : Type} (st : EngineState Pat) (candidate : TemplateRecord)
    (line : ProcessedLogLine) (plan : PlanField) (reason : String) : EngineState Pat :=
  { st with
    metrics := { st.metrics with escalations := st.metrics.escalations + 1 },
    service := enqueue st.service "template_conflict" reason
      (.escalation candidate plan line.transformed) }

/-- The replaced_ids loop of the replace_conflicting branch: deactivate
each listed id and pop it from the example cache, in order. -/
def applyReplaced {Pat : Type} (st : EngineState Pat) (ids : List String) : EngineState Pat :=
  ids.foldl (fun st tid =>
    { st with library := deactivate st.library tid, examples := alistErase tid st.examples }) st

section EngineOps

variable {Pat : Type}
variable (compile : String → Option Pat)
variable (fullmatch : Pat → String → Option (List (String × String)))

/-- LearningEngine._apply_conflict_plan: reject plans with a missing or
blank new_regex; overwrite the candidate's pattern with the stripped
text; re-validate it; then either replace the listed conflicting ids
and store, store the refined candidate, or escalate on an unsupported
decision.  An invalid final pattern makes library.add raise, which
propagates (the Except error case). -/
def applyConflictPlan (O : AgentOracle) (plan : ConflictPlan) (candidate : TemplateRecord)
    (line : ProcessedLogLine) (st : EngineState Pat) (tr : CallTrace) :
    EngineState Pat × CallTrace × Except PatternError LearningOutcome :=
  match plan.new_regex with
  | none =>
    (escalate st candidate line (.plan plan) "missing new_regex in conflict plan", tr,
      .ok ⟨"escalated", none, "conflict plan missing regex"⟩)
  | some s =>
    if pyStrip s = "" then
      (escalate st candidate line (.plan plan) "missing new_regex in conflict plan", tr,
        .ok ⟨"escalated", none, "conflict plan missing regex"⟩)
    else
      let candidate := { candidate with regex := pyStrip s }
      let validation := O.review candidate.regex
      let tr := { tr with reviews := tr.reviews + 1 }
      if validation.approved then
        if plan.decision = some "replace_conflicting" then
          let st := applyReplaced st plan.replaced_ids
          match addRecord compile st.library candidate with
          | (lib', .error e) => ({ st with library := lib' }, tr, .error e)
          | (lib', .ok stored) =>
            ({ st with
                library := lib'
                examples := alistInsert stored.template_id line st.examples
                metrics := { st.metrics with
                  learned_templates := st.metrics.learned_templates + 1 } }, tr,
              .ok ⟨"replaced", some stored.template_id, plan.reasoning⟩)
        else if plan.decision = some "refine_candidate" then
          match addRecord compile st.library candidate with
          | (lib', .error e) => ({ st with library := lib' }, tr, .error e)
          | (lib', .ok stored) =>
            ({ st with
                library := lib'
                examples := alistInsert stored.template_id line st.examples
                metrics := { st.metrics with
                  learned_templates := st.metrics.learned_templates + 1 } }, tr,
              .ok ⟨"refined", some stored.template_id, plan.reasoning⟩)
        else
          (escalate st candidate line (.plan plan) "unsupported decision", tr,
            .ok ⟨"escalated", none, "unsupported conflict decision"⟩)
      else
        (escalate st candidate line (.plan plan) "refined regex rejected by validator", tr,
          .ok ⟨"escalated", none, "validator rejected refined regex"⟩)

/-- Tail of LearningEngine.process_line after the validation verdict
for the (possibly refined) pattern is known: reject, or build the
candidate, detect conflicts, store without conflict (library.add may
raise, the error case), or run conflict adjudication.  On an
adjudication AgentError, update_agent.resolve_conflict first enqueues
its own failure task, then process_line's handler escalates. -/
def learnApproved (O : AgentOracle) (line : ProcessedLogLine) (st : EngineState Pat)
    (proposal : TemplateProposal) (regex : String) (report : ValidationReport)
    (tr : CallTrace) : EngineState Pat × CallTrace × Except PatternError LearningOutcome :=
  if report.approved then
    let candidate : TemplateRecord :=
      { template_id := "", source_id := st.library.source_id, regex := regex,
        notes := proposal.reasoning }
    let conflicts := detectConflicts compile fullmatch regex st.library st.examples
    if conflicts.isEmpty then
      match addRecord compile st.library candidate with
      | (lib', .error e) => ({ st with library := lib' }, tr, .error e)
      | (lib', .ok stored) =>
        ({ st with
            library := lib'
            examples := alistInsert stored.template_id line st.examples
            metrics := { st.metrics with
              learned_templates := st.metrics.learned_templates + 1 } }, tr,
          .ok ⟨"stored", some stored.template_id, "stored without conflict"⟩)
    else
      match O.resolve with
      | .error msg =>
        let payload : TaskPayload :=
          .resolveFailure candidate line.transformed (conflicts.map Prod.fst)
        let st1 := { st with
          service := enqueue st.service "template_conflict"
            "Conflict resolution failed (invalid JSON)" payload }
        (escalate st1 candidate line (.errorInfo msg) "conflict resolution error",
          { tr with resolves := tr.resolves + 1 }, .ok ⟨"escalated", none, msg⟩)
      | .ok plan =>
        applyConflictPlan compile O plan candidate line st
          { tr with resolves := tr.resolves + 1 }
  else
    ({ st with metrics :=
        { st.metrics with escalations := st.metrics.escalations + 1 } }, tr,
      .ok ⟨"rejected", none, String.intercalate "; " report.issues⟩)

/-- LearningEngine.process_line: propose, validate, at most one repair
(an AgentError there is the repair_failed outcome), then the shared
tail.  The CallTrace records how many requests each collaborator got. -/
def processLine (O : AgentOracle) (line : ProcessedLogLine) (st : EngineState Pat) :
    EngineState Pat × CallTrace × Except PatternError LearningOutcome :=
  let proposal := O.derive
  let report := O.review proposal.regex
  if report.approved then
    learnApproved compile fullmatch O line st proposal proposal.regex report ⟨1, 1, 0, 0⟩
  else
    match O.refine with
    | .error msg =>
      ({ st with metrics :=
          { st.metrics with escalations := st.metrics.escalations + 1 } },
        ⟨1, 1, 1, 0⟩, .ok ⟨"repair_failed", none, msg⟩)
    | .ok refined =>
      learnApproved compile fullmatch O line st proposal refined (O.review refined) ⟨1, 2, 1, 0⟩

/-- One iteration of the phase-1 loop in
LogParsingOrchestrator.process: count the line, try to match it (a hit
records the example only via setdefault and bumps the matched counter),
otherwise run the learning engine and setdefault the outcome's template
id into the example cache.  An uncaught exception ends with its state
as mutated so far. -/
def phase1Step (O : AgentOracle) (st : EngineState Pat) (line : ProcessedLogLine) :
    EngineState Pat × Except PatternError Unit :=
  let st := { st with metrics :=
    { st.metrics with processed_lines := st.metrics.processed_lines + 1 } }
  match libMatch compile fullmatch st.library line with
  | (lib', .error e) => ({ st with library := lib' }, .error e)
  | (lib', .ok (some (record, _))) =>
    ({ st with
        library := lib'
        examples := alistSetdefault record.template_id line st.examples
        metrics := { st.metrics with
          matched_lines := st.metrics.matched_lines + 1 } }, .ok ())
  | (lib', .ok none) =>
    match processLine compile fullmatch O line { st with library := lib' } with
    | (st', _, .error e) => (st', .error e)
    | (st', _, .ok outcome) =>
      match outcome.template_id with
      | some tid =>
        if tid = "" then (st', .ok ())
        else ({ st' with examples := alistSetdefault tid line st'.examples }, .ok ())
      | none => (st', .ok ())

end EngineOps

/-- A tiny concrete matchable-expression engine used to instantiate the
parameterised theorems in witnesses: the pattern "(" fails to compile
(as it does under Python's re), the pattern "ANY" fully matches every
text and captures it under the name "msg", and every other pattern
fully matches exactly its own text with no captures. -/
def toyCompile (s : String) : Option String :=
  if s = "(" then none else some s

/-- Full-match function of the toy engine; see toyCompile. -/
def toyFullmatch (p text : String) : Option (List (String × String)) :=
  if p = "ANY" then some [("msg", text)]
  else if p = text then some [] else none

/-- Reference matcher used to state the first-hit semantics of
TemplateLibrary.match: walk the records in insertion order, skip
inactive ones, and return the first whose freshly compiled pattern
fully matches the text.  Under a consistent compiled cache this is
exactly what libMatch computes. -/
def firstMatch {Pat : Type} (compile : String → Option Pat)
    (fullmatch : Pat → String → Option (List (String × String))) (text : String) :
    List (String × TemplateRecord) → Option (TemplateRecord × List (String × String))
  | [] => none
  | (_, r) :: rest =>
    if r.is_active then
      match (compile r.regex).bind (fun p => fullmatch p text) with
      | some groups => some (r, groups)
      | none => firstMatch compile fullmatch text rest
    else firstMatch compile fullmatch text rest

/-- A sequence of TemplateLibrary.add calls, collecting the assigned
ids in order; a compile exception aborts the sequence. -/
def addMany {Pat : Type} (compile : String → Option Pat) :
    TemplateLibrary Pat → List TemplateRecord →
      Except PatternError (TemplateLibrary Pat × List String)
  | lib, [] => .ok (lib, [])
  | lib, r :: rs =>
    match addRecord compile lib r with
    | (_, .error e) => .error e
    | (lib', .ok stored) =>
      match addMany compile lib' rs with
      | .error e => .error e
      | .ok (lib2, ids) => .ok (lib2, stored.template_id :: ids)

/-- One iteration of the replaced_ids loop: deactivate the id and pop
it from the example cache (the lambda folded by applyReplaced). -/
def replacedStep {Pat : Type} (st : EngineState Pat) (tid : String) : EngineState Pat :=
  { st with library := deactivate st.library tid, examples := alistErase tid st.examples }

/-- Decidable equality for Except values, for concrete evaluation. -/
instance {e a : Type} [DecidableEq e] [DecidableEq a] : DecidableEq (Except e a) := fun x y =>
  match x, y with
  | .error u, .error v =>
    if h : u = v then isTrue (congrArg Except.error h)
    else isFalse (fun q => h (Except.error.inj q))
  | .ok u, .ok v =>
    if h : u = v then isTrue (congrArg Except.ok h)
    else isFalse (fun q => h (Except.ok.inj q))
  | .error _, .ok _ => isFalse (fun q => Except.noConfusion q)
  | .ok _, .error _ => isFalse (fun q => Except.noConfusion q)

/-! ### Supporting lemmas -/

theorem alistLookup_insert_self (k : String) (v : α) (l : List (String × α)) :
    alistLookup k (alistInsert k v l) = some v := by
  induction l with
  | nil => simp [alistInsert, alistLookup]
  | cons hd tl ih =>
    by_cases h : hd.1 = k
    · simp [alistInsert, alistLookup, h]
    · simp [alistInsert, alistLookup, h, ih]

theorem alistLookup_insert_ne (k k' : String) (v : α) (l : List (String × α))
    (h : k' ≠ k) : alistLookup k' (alistInsert k v l) = alistLookup k' l := by
  induction l with
  | nil =>
    simp only [alistInsert, alistLookup]
    rw [if_neg (fun e => h e.symm)]
  | cons hd tl ih =>
    simp only [alistInsert]
    by_cases hh : hd.1 = k
    · rw [if_pos hh]
      simp only [alistLookup]
      rw [if_neg (fun e => h e.symm), if_neg (fun e : hd.1 = k' => h ((hh.symm.trans e)).symm)]
    · rw [if_neg hh]
      simp only [alistLookup]
      by_cases hk : hd.1 = k'
      · rw [if_pos hk, if_pos hk]
      · rw [if_neg hk, if_neg hk]
        exact ih

theorem alistLookup_append (k : String) (l1 l2 : List (String × α)) :
    alistLookup k (l1 ++ l2) =
      (match alistLookup k l1 with
       | some v => some v
       | none => alistLookup k l2) := by
  induction l1 with
  | nil => rfl
  | cons hd tl ih =>
    simp only [List.cons_append, alistLookup]
    by_cases hh : hd.1 = k
    · rw [if_pos hh, if_pos hh]
    · rw [if_neg hh, if_neg hh]
      exact ih

theorem alistLookup_eq_none_of_not_mem (k : String) (l : List (String × α))
    (h : k ∉ l.map Prod.fst) : alistLookup k l = none := by
  induction l with
  | nil => rfl
  | cons hd tl ih =>
    simp only [List.map_cons, List.mem_cons, not_or] at h
    simp only [alistLookup]
    rw [if_neg (fun e => h.1 e.symm)]
    exact ih h.2

theorem alistLookup_erase_self (k : String) (l : List (String × α))
    (hnd : (l.map Prod.fst).Nodup) : alistLookup k (alistErase k l) = none := by
  induction l with
  | nil => rfl
  | cons hd tl ih =>
    simp only [List.map_cons, List.nodup_cons] at hnd
    by_cases h : hd.1 = k
    · simp only [alistErase, if_pos h]
      exact alistLookup_eq_none_of_not_mem k tl (h ▸ hnd.1)
    · simp only [alistErase, if_neg h, alistLookup, if_neg h]
      exact ih hnd.2

theorem alistLookup_erase_ne (k k' : String) (l : List (String × α))
    (h : k' ≠ k) : alistLookup k' (alistErase k l) = alistLookup k' l := by
  induction l with
  | nil => rfl
  | cons hd tl ih =>
    by_cases hh : hd.1 = k
    · simp only [alistErase, if_pos hh, alistLookup]
      rw [if_neg (fun e : hd.1 = k' => h ((hh.symm.trans e)).symm)]
    · simp only [alistErase, if_neg hh, alistLookup]
      by_cases hk : hd.1 = k'
      · rw [if_pos hk, if_pos hk]
      · rw [if_neg hk, if_neg hk]
        exact ih

theorem alistLookup_setdefault_present (k : String) (v w : α) (l : List (String × α))
    (h : alistLookup k l = some w) : alistSetdefault k v l = l := by
  simp [alistSetdefault, h]

theorem alistLookup_setdefault_absent (k : String) (v : α) (l : List (String × α))
    (h : alistLookup k l = none) :
    alistLookup k (alistSetdefault k v l) = some v := by
  simp only [alistSetdefault, h]
  rw [alistLookup_append, h]
  simp [alistLookup]

theorem alistLookup_setdefault_ne (k k' : String) (v : α) (l : List (String × α))
    (h : k' ≠ k) : alistLookup k' (alistSetdefault k v l) = alistLookup k' l := by
  unfold alistSetdefault
  cases hl : alistLookup k l with
  | some w => rfl
  | none =>
    rw [alistLookup_append]
    cases hx : alistLookup k' l with
    | some w => rfl
    | none =>
      simp only [alistLookup]
      rw [if_neg (fun e => h e.symm)]

theorem digitChar_toNat (n : Nat) (h : n < 10) : (Nat.digitChar n).toNat - 48 = n := by
  interval_cases n <;> decide

theorem digitChar_isDigit (n : Nat) (h : n < 10) : (Nat.digitChar n).isDigit = true := by
  interval_cases n <;> decide

/-- Core correctness of the fueled decimal printer: the digits are
nonempty decimal digits, evaluate back to n, and bound n by
10 ^ length. -/
theorem natDecAux_spec : ∀ fuel n, n < fuel →
    natDecAux fuel n ≠ [] ∧ (natDecAux fuel n).all Char.isDigit ∧
    (∀ a, (natDecAux fuel n).foldl (fun acc c => acc * 10 + (c.toNat - 48)) a =
      a * 10 ^ (natDecAux fuel n).length + n) ∧
    n < 10 ^ (natDecAux fuel n).length := by
  intro fuel
  induction fuel with
  | zero => intro n h; omega
  | succ fuel ih =>
    intro n h
    by_cases h10 : n < 10
    · refine ⟨by simp [natDecAux, h10], ?_, ?_, ?_⟩
      · simp [natDecAux, h10, digitChar_isDigit n h10]
      · intro a
        simp [natDecAux, h10, digitChar_toNat n h10, List.foldl]
      · simp only [natDecAux, if_pos h10, List.length_cons, List.length_nil, pow_one]
        omega
    · have hdiv : n / 10 < fuel := by omega
      obtain ⟨hne, hdig, hval, hbound⟩ := ih (n / 10) hdiv
      have hmod : n % 10 < 10 := Nat.mod_lt _ (by omega)
      refine ⟨by simp [natDecAux, h10], ?_, ?_, ?_⟩
      · simp only [natDecAux, if_neg h10, List.all_append, List.all_cons, List.all_nil,
          Bool.and_true]
        rw [hdig, digitChar_isDigit _ hmod]
        rfl
      · intro a
        simp only [natDecAux, if_neg h10, List.foldl_append, hval a, List.foldl,
          List.length_append, List.length_cons, List.length_nil]
        rw [digitChar_toNat _ hmod]
        generalize List.length (natDecAux fuel (n / 10)) = len
        generalize hT : (10 : Nat) ^ len = T
        have hp : (10 : Nat) ^ (len + (0 + 1)) = T * 10 := by
          rw [← hT, ← pow_succ]
        rw [hp]
        have hdm := Nat.div_add_mod n 10
        have expand : (a * T + n / 10) * 10 + n % 10 =
            a * (T * 10) + (10 * (n / 10) + n % 10) := by ring
        rw [expand, hdm]
      · simp only [natDecAux, if_neg h10, List.length_append, List.length_cons,
          List.length_nil]
        generalize hL : List.length (natDecAux fuel (n / 10)) = len
        rw [hL] at hbound
        generalize hT : (10 : Nat) ^ len = T
        rw [hT] at hbound
        have hp : (10 : Nat) ^ (len + (0 + 1)) = T * 10 := by
          rw [← hT, ← pow_succ]
        rw [hp]
        have hdm := Nat.div_add_mod n 10
        have h2 : (n / 10 + 1) * 10 ≤ T * 10 := Nat.mul_le_mul_right 10 hbound
        omega

theorem natDec_ne_nil (n : Nat) : (natDec n).data ≠ [] :=
  (natDecAux_spec (n + 1) n (Nat.lt_succ_self n)).1

theorem natDec_all_digits (n : Nat) : (natDec n).data.all Char.isDigit :=
  (natDecAux_spec (n + 1) n (Nat.lt_succ_self n)).2.1

theorem digitsVal_natDec (n : Nat) : digitsVal (natDec n).data = n := by
  have := (natDecAux_spec (n + 1) n (Nat.lt_succ_self n)).2.2.1 0
  simpa [digitsVal, natDec] using this

theorem natDec_lt_pow (n : Nat) : n < 10 ^ (natDec n).data.length :=
  (natDecAux_spec (n + 1) n (Nat.lt_succ_self n)).2.2.2

theorem natDec_no_dash (n : Nat) : ∀ c ∈ (natDec n).data, c ≠ '-' := by
  intro c hc
  have hall := natDec_all_digits n
  rw [List.all_eq_true] at hall
  have hd := hall c hc
  intro e
  subst e
  exact absurd hd (by decide)

theorem foldl_replicate_zero (k : Nat) :
    List.foldl (fun acc c => acc * 10 + (c.toNat - 48)) 0 (List.replicate k '0') = 0 := by
  induction k with
  | zero => rfl
  | succ k ih =>
    simp only [List.replicate_succ, List.foldl]
    have hz : (0 : Nat) * 10 + ('0'.toNat - 48) = 0 := by decide
    rw [hz]
    exact ih

/-- Leading zeros do not change the decimal value. -/
theorem digitsVal_replicate_zero (k : Nat) (l : List Char) :
    digitsVal (List.replicate k '0' ++ l) = digitsVal l := by
  unfold digitsVal
  rw [List.foldl_append, foldl_replicate_zero]

theorem takeWhile_append_of_all {p : Char → Bool} (l1 l2 : List Char)
    (h1 : ∀ c ∈ l1, p c = true) :
    (l1 ++ l2).takeWhile p = l1 ++ l2.takeWhile p := by
  induction l1 with
  | nil => simp
  | cons hd tl ih =>
    have hp := h1 hd (by simp)
    simp only [List.cons_append, List.takeWhile_cons, hp, if_pos]
    rw [ih (fun c hc => h1 c (by simp [hc]))]

theorem takeWhile_stops {p : Char → Bool} (l1 l2 : List Char)
    (h1 : ∀ c ∈ l1, p c = true) (hd : Char) (h2 : p hd = false) :
    (l1 ++ hd :: l2).takeWhile p = l1 := by
  rw [takeWhile_append_of_all l1 (hd :: l2) h1]
  simp [List.takeWhile_cons, h2]

theorem pad4_data (n : Nat) :
    (pad4 n).data = List.replicate (4 - (natDec n).data.length) '0' ++ (natDec n).data := rfl

theorem pad4_all_digits (n : Nat) : ∀ c ∈ (pad4 n).data, c.isDigit = true := by
  intro c hc
  rw [pad4_data, List.mem_append] at hc
  rcases hc with hc | hc
  · have := List.eq_of_mem_replicate hc
    subst this
    decide
  · exact (List.all_eq_true.mp (natDec_all_digits n)) c hc

theorem pad4_ne_nil (n : Nat) : (pad4 n).data ≠ [] := by
  rw [pad4_data]
  intro h
  rw [List.append_eq_nil] at h
  exact natDec_ne_nil n h.2

theorem digitsVal_pad4 (n : Nat) : digitsVal (pad4 n).data = n := by
  rw [pad4_data, digitsVal_replicate_zero, digitsVal_natDec]

theorem mkId_data (src : String) (n : Nat) :
    (mkId src n).data = src.data ++ '-' :: (pad4 n).data := by
  unfold mkId
  rw [String.data_append, String.data_append]
  simp

theorem afterLastDash_mkId (src : String) (n : Nat) :
    afterLastDash (mkId src n).data = (pad4 n).data := by
  have hall : ∀ c ∈ (pad4 n).data.reverse, (decide (c ≠ '-')) = true := by
    intro c hc
    have hdig := pad4_all_digits n c (List.mem_reverse.mp hc)
    exact decide_eq_true (fun e => by subst e; exact absurd hdig (by decide))
  rw [mkId_data]
  unfold afterLastDash
  rw [List.reverse_append, List.reverse_cons, List.append_assoc, List.singleton_append]
  rw [takeWhile_stops _ _ hall '-' (by decide)]
  rw [List.reverse_reverse]

theorem parseSuffix_mkId (src : String) (n : Nat) : parseSuffix (mkId src n) = some n := by
  simp only [parseSuffix]
  rw [afterLastDash_mkId]
  rw [if_pos ⟨pad4_ne_nil n, List.all_eq_true.mpr (pad4_all_digits n)⟩]
  rw [digitsVal_pad4]

theorem mkId_inj (src : String) {a b : Nat} (h : mkId src a = mkId src b) : a = b := by
  have h2 := congrArg parseSuffix h
  rw [parseSuffix_mkId, parseSuffix_mkId] at h2
  exact Option.some.inj h2

/-- Above the padding width the id sequence is emitted unpadded, exactly
the plain decimal rendering. -/
theorem pad4_unpadded (n : Nat) (h : 10000 ≤ n) : pad4 n = natDec n := by
  have hb := natDec_lt_pow n
  have hlen : 4 ≤ (natDec n).data.length := by
    by_contra hlt
    push_neg at hlt
    have hle : (10 : Nat) ^ (natDec n).data.length ≤ 10 ^ 3 :=
      Nat.pow_le_pow_right (by omega) (by omega)
    omega
  show String.mk (List.replicate (4 - (natDec n).data.length) '0' ++ (natDec n).data) = natDec n
  rw [Nat.sub_eq_zero_of_le hlen, List.replicate_zero, List.nil_append]

/-! ### Claim theorems -/

/-- C1: for every candidate pattern string and example cache, the
conflict detector returns exactly the pairs (record, example text) such
that the record is a stored active record, the example is its cached
example line's canonical text, and the compiled candidate fully matches
that text; when the candidate fails to compile the conflict set is
empty.  The operation is a pure function of its arguments (it is total
and mutates no state by construction). -/
theorem C1_detect_conflicts_exact {Pat : Type} (compile : String → Option Pat)
    (fullmatch : Pat → String → Option (List (String × String)))
    (regex : String) (lib : TemplateLibrary Pat)
    (examples : List (String × ProcessedLogLine)) :
    (compile regex = none → detectConflicts compile fullmatch regex lib examples = []) ∧
    (∀ p, compile regex = some p → ∀ record ex,
      ((record, ex) ∈ detectConflicts compile fullmatch regex lib examples ↔
        ∃ tid, (tid, record) ∈ lib.templates ∧ record.is_active = true ∧
          ∃ sample, alistLookup tid examples = some sample ∧
            ex = sample.transformed ∧ (fullmatch p sample.transformed).isSome = true)) := by
  constructor
  · intro h
    simp [detectConflicts, h]
  · intro p hp record ex
    simp only [detectConflicts, hp]
    rw [List.mem_filterMap]
    constructor
    · rintro ⟨⟨tid, r⟩, hmem, hf⟩
      simp only at hf
      by_cases ha : r.is_active
      · rw [if_pos ha] at hf
        cases hs : alistLookup tid examples with
        | none =>
          rw [hs] at hf
          exact absurd hf (by simp)
        | some sample =>
          rw [hs] at hf
          simp only at hf
          by_cases hm : (fullmatch p sample.transformed).isSome
          · rw [if_pos hm] at hf
            simp only [Option.some.injEq, Prod.mk.injEq] at hf
            obtain ⟨hr, he⟩ := hf
            subst hr
            subst he
            exact ⟨tid, hmem, ha, sample, hs, rfl, hm⟩
          · rw [if_neg hm] at hf
            exact absurd hf (by simp)
      · rw [if_neg ha] at hf
        exact absurd hf (by simp)
    · rintro ⟨tid, hmem, ha, sample, hs, he, hm⟩
      refine ⟨(tid, record), hmem, ?_⟩
      simp only
      rw [if_pos ha, hs]
      simp only
      rw [if_pos hm, he]

/-- Witness for C1: under the toy engine the always-matching candidate
"ANY" is reported in conflict with the stored active record exactly at
its cached example text. -/
theorem C1_witness :
    toyCompile "ANY" = some "ANY" ∧
    (⟨"s-0001", "s", "user (?P<n>.*)", "", true⟩, "user bob") ∈
      detectConflicts toyCompile toyFullmatch "ANY"
        ⟨"s", [("s-0001", ⟨"s-0001", "s", "user (?P<n>.*)", "", true⟩)], [], 2⟩
        [("s-0001", ⟨"user bob", "user bob"⟩)] := by
  refine ⟨rfl, ?_⟩
  refine ((C1_detect_conflicts_exact toyCompile toyFullmatch "ANY"
      ⟨"s", [("s-0001", ⟨"s-0001", "s", "user (?P<n>.*)", "", true⟩)], [], 2⟩
      [("s-0001", ⟨"user bob", "user bob"⟩)]).2 "ANY" rfl _ _).mpr ?_
  exact ⟨"s-0001", by decide, rfl, ⟨"user bob", "user bob"⟩, rfl, rfl, rfl⟩

/-- With every template's compiled pattern in the cache, library.match
reads only the cache and leaves the library untouched. -/
theorem matchGo_fix_of_cache {Pat : Type} (compile : String → Option Pat)
    (fullmatch : Pat → String → Option (List (String × String)))
    (line : ProcessedLogLine) (ts : List (String × TemplateRecord))
    (lib : TemplateLibrary Pat)
    (h : ∀ pr ∈ ts, (alistLookup pr.1 lib.compiled).isSome = true) :
    (matchGo compile fullmatch line ts lib).1 = lib := by
  induction ts with
  | nil => rfl
  | cons hd tl ih =>
    obtain ⟨tid, r⟩ := hd
    have hh := h (tid, r) (by simp)
    obtain ⟨pat, hc⟩ := Option.isSome_iff_exists.mp hh
    simp only [matchGo]
    by_cases ha : r.is_active
    · simp only [ha, if_true, hc]
      cases hm : fullmatch pat line.transformed with
      | some groups => rfl
      | none => exact ih (fun pr hpr => h pr (by simp [hpr]))
    · simp only [ha, if_false]
      exact ih (fun pr hpr => h pr (by simp [hpr]))

/-- The phase-2 loop of match_all leaves a fully cached library
untouched. -/
theorem matchAllGo_fix_of_cache {Pat : Type} (compile : String → Option Pat)
    (fullmatch : Pat → String → Option (List (String × String)))
    (idx : Nat) (lines : List ProcessedLogLine) (lib : TemplateLibrary Pat)
    (h : ∀ pr ∈ lib.templates, (alistLookup pr.1 lib.compiled).isSome = true) :
    (matchAllGo compile fullmatch idx lines lib).1 = lib := by
  induction lines generalizing idx with
  | nil => rfl
  | cons line rest ih =>
    have hfix : (libMatch compile fullmatch lib line).1 = lib :=
      matchGo_fix_of_cache compile fullmatch line lib.templates lib h
    rcases hlm : libMatch compile fullmatch lib line with ⟨lib1, res⟩
    rw [hlm] at hfix
    simp only at hfix
    subst hfix
    simp only [matchAllGo, hlm]
    cases res with
    | error e => rfl
    | ok m =>
      rcases hrec : matchAllGo compile fullmatch (idx + 1) rest lib1 with ⟨lib2, res2⟩
      have hrec1 := ih (idx + 1)
      rw [hrec] at hrec1
      simp only at hrec1
      subst hrec1
      cases res2 <;> simp only [hrec]

/-- C3: phase-2 reconciliation is pure matching: over a fully cached
final library (the state every template reaches when stored, since add
and load compile each pattern into the cache), match_all leaves the
template store exactly as it was, re-running it gives the identical
result pair, and the rendered TSV output of the two runs is
byte-identical.  No learning step or collaborator call occurs in
match_all by construction. -/
theorem C3_phase2_deterministic_pure {Pat : Type} (compile : String → Option Pat)
    (fullmatch : Pat → String → Option (List (String × String)))
    (lib : TemplateLibrary Pat) (lines : List ProcessedLogLine)
    (hcache : ∀ pr ∈ lib.templates, (alistLookup pr.1 lib.compiled).isSome = true) :
    (matchAll compile fullmatch lib lines).1 = lib ∧
    matchAll compile fullmatch (matchAll compile fullmatch lib lines).1 lines =
      matchAll compile fullmatch lib lines ∧
    (∀ rs rs2, (matchAll compile fullmatch lib lines).2 = .ok rs →
      (matchAll compile fullmatch (matchAll compile fullmatch lib lines).1 lines).2 = .ok rs2 →
      renderRows rs2 = renderRows rs) := by
  have h1 : (matchAll compile fullmatch lib lines).1 = lib :=
    matchAllGo_fix_of_cache compile fullmatch 1 lines lib hcache
  refine ⟨h1, by rw [h1], ?_⟩
  intro rs rs2 ha hb
  rw [h1, ha] at hb
  cases hb
  rfl

/-- Witness for C3: a concrete fully cached library is left untouched
by a two-line phase-2 pass. -/
theorem C3_witness :
    (∀ pr ∈ (⟨"s", [("s-0001", ⟨"s-0001", "s", "ANY", "", true⟩)],
        [("s-0001", "ANY")], 2⟩ : TemplateLibrary String).templates,
      (alistLookup pr.1 (⟨"s", [("s-0001", ⟨"s-0001", "s", "ANY", "", true⟩)],
        [("s-0001", "ANY")], 2⟩ : TemplateLibrary String).compiled).isSome = true) ∧
    (matchAll toyCompile toyFullmatch
      ⟨"s", [("s-0001", ⟨"s-0001", "s", "ANY", "", true⟩)], [("s-0001", "ANY")], 2⟩
      [⟨"a", "a"⟩, ⟨"b", "b"⟩]).1 =
      ⟨"s", [("s-0001", ⟨"s-0001", "s", "ANY", "", true⟩)], [("s-0001", "ANY")], 2⟩ := by
  refine ⟨by decide, ?_⟩
  exact (C3_phase2_deterministic_pure toyCompile toyFullmatch
    ⟨"s", [("s-0001", ⟨"s-0001", "s", "ANY", "", true⟩)], [("s-0001", "ANY")], 2⟩
    [⟨"a", "a"⟩, ⟨"b", "b"⟩] (by decide)).1

/-- When every cached entry agrees with fresh compilation and every
pattern compiles, library.match computes exactly the reference
first-match semantics and leaves the library unchanged. -/
theorem matchGo_eq_firstMatch {Pat : Type} (compile : String → Option Pat)
    (fullmatch : Pat → String → Option (List (String × String)))
    (line : ProcessedLogLine) (ts : List (String × TemplateRecord))
    (lib : TemplateLibrary Pat)
    (h : ∀ pr ∈ ts, alistLookup pr.1 lib.compiled = compile pr.2.regex ∧
      (compile pr.2.regex).isSome = true) :
    matchGo compile fullmatch line ts lib =
      (lib, .ok (firstMatch compile fullmatch line.transformed ts)) := by
  induction ts with
  | nil => rfl
  | cons hd tl ih =>
    obtain ⟨tid, r⟩ := hd
    obtain ⟨hc, hs⟩ := h (tid, r) (by simp)
    obtain ⟨p, hp⟩ := Option.isSome_iff_exists.mp hs
    simp only at hc hp
    simp only [matchGo, firstMatch]
    by_cases ha : r.is_active
    · simp only [ha, if_true]
      rw [hc, hp]
      simp only [Option.some_bind]
      cases hm : fullmatch p line.transformed with
      | some g => simp only [hm]
      | none =>
        simp only [hm]
        exact ih (fun pr hpr => h pr (by simp [hpr]))
    · simp only [ha, if_false]
      exact ih (fun pr hpr => h pr (by simp [hpr]))

/-- The reference matcher returns none exactly when no active record's
pattern fully matches the text. -/
theorem firstMatch_none_iff {Pat : Type} (compile : String → Option Pat)
    (fullmatch : Pat → String → Option (List (String × String)))
    (text : String) (ts : List (String × TemplateRecord)) :
    firstMatch compile fullmatch text ts = none ↔
      ∀ pr ∈ ts, pr.2.is_active = true →
        (compile pr.2.regex).bind (fun p => fullmatch p text) = none := by
  induction ts with
  | nil => simp [firstMatch]
  | cons hd tl ih =>
    obtain ⟨tid, r⟩ := hd
    simp only [firstMatch]
    by_cases ha : r.is_active
    · simp only [ha, if_true]
      cases hm : (compile r.regex).bind (fun p => fullmatch p text) with
      | some g =>
        simp only [hm]
        constructor
        · intro h
          exact absurd h (by simp)
        · intro hall
          have hx := hall (tid, r) (by simp) ha
          simp only at hx
          rw [hm] at hx
          exact absurd hx (by simp)
      | none =>
        simp only [hm]
        rw [ih, List.forall_mem_cons]
        simp only
        constructor
        · intro hall
          exact ⟨fun _ => hm, hall⟩
        · intro hall
          exact hall.2
    · simp only [ha, Bool.false_eq_true, if_false]
      rw [ih, List.forall_mem_cons]
      simp only
      constructor
      · intro hall
        exact ⟨fun hx => absurd hx ha, hall⟩
      · intro hall
        exact hall.2

/-- A hit of the reference matcher is an active, fully matching record,
and every record stored earlier in insertion order is inactive or fails
to match: the earliest-inserted active match wins. -/
theorem firstMatch_some_spec {Pat : Type} (compile : String → Option Pat)
    (fullmatch : Pat → String → Option (List (String × String)))
    (text : String) : ∀ (ts : List (String × TemplateRecord)) (r : TemplateRecord)
      (g : List (String × String)),
    firstMatch compile fullmatch text ts = some (r, g) →
      r.is_active = true ∧
      (compile r.regex).bind (fun p => fullmatch p text) = some g ∧
      ∃ ts1 tid ts2, ts = ts1 ++ (tid, r) :: ts2 ∧
        ∀ pr ∈ ts1, pr.2.is_active = true →
          (compile pr.2.regex).bind (fun p => fullmatch p text) = none := by
  intro ts
  induction ts with
  | nil => intro r g h; exact absurd h (by simp [firstMatch])
  | cons hd tl ih =>
    intro r g h
    obtain ⟨tid, r'⟩ := hd
    simp only [firstMatch] at h
    by_cases ha : r'.is_active
    · rw [if_pos ha] at h
      cases hm : (compile r'.regex).bind (fun p => fullmatch p text) with
      | some g' =>
        rw [hm] at h
        simp only [Option.some.injEq, Prod.mk.injEq] at h
        obtain ⟨hr, hg⟩ := h
        subst hr
        subst hg
        exact ⟨ha, hm, [], tid, tl, rfl, by simp⟩
      | none =>
        rw [hm] at h
        simp only at h
        obtain ⟨h1, h2, ts1, tid2, ts2, heq, hall⟩ := ih r g h
        refine ⟨h1, h2, (tid, r') :: ts1, tid2, ts2, by rw [heq, List.cons_append], ?_⟩
        intro pr hpr
        rcases List.mem_cons.mp hpr with hhd | htl
        · subst hhd
          intro _
          exact hm
        · exact hall pr htl
    · rw [if_neg ha] at h
      obtain ⟨h1, h2, ts1, tid2, ts2, heq, hall⟩ := ih r g h
      refine ⟨h1, h2, (tid, r') :: ts1, tid2, ts2, by rw [heq, List.cons_append], ?_⟩
      intro pr hpr
      rcases List.mem_cons.mp hpr with hhd | htl
      · subst hhd
        intro hx
        exact absurd hx ha
      · exact hall pr htl

/-- C2: over a library whose compiled cache agrees with fresh
compilation (the invariant add and load maintain), match iterates the
records in insertion order, considers only active ones, requires the
compiled pattern to fully match the canonical text, returns the first
hit with its captured variables, and leaves the library unchanged — so
the result is a function of the active template list and the line, and
of two active fully matching templates the earlier-inserted one is
returned (every earlier active record fails to match). -/
theorem C2_match_first_hit {Pat : Type} (compile : String → Option Pat)
    (fullmatch : Pat → String → Option (List (String × String)))
    (lib : TemplateLibrary Pat) (line : ProcessedLogLine)
    (hcache : ∀ pr ∈ lib.templates, alistLookup pr.1 lib.compiled = compile pr.2.regex ∧
      (compile pr.2.regex).isSome = true) :
    libMatch compile fullmatch lib line =
      (lib, .ok (firstMatch compile fullmatch line.transformed lib.templates)) ∧
    (firstMatch compile fullmatch line.transformed lib.templates = none ↔
      ∀ pr ∈ lib.templates, pr.2.is_active = true →
        (compile pr.2.regex).bind (fun p => fullmatch p line.transformed) = none) ∧
    (∀ r g, firstMatch compile fullmatch line.transformed lib.templates = some (r, g) →
      r.is_active = true ∧
      (compile r.regex).bind (fun p => fullmatch p line.transformed) = some g ∧
      ∃ ts1 tid ts2, lib.templates = ts1 ++ (tid, r) :: ts2 ∧
        ∀ pr ∈ ts1, pr.2.is_active = true →
          (compile pr.2.regex).bind (fun p => fullmatch p line.transformed) = none) :=
  ⟨matchGo_eq_firstMatch compile fullmatch line lib.templates lib hcache,
   firstMatch_none_iff compile fullmatch line.transformed lib.templates,
   fun r g h => firstMatch_some_spec compile fullmatch line.transformed lib.templates r g h⟩

/-- Witness for C2: two active templates ("ANY" twice) both fully match
the line "x"; match returns the earlier-inserted record s-0001 with its
captures, leaving the library unchanged. -/
theorem C2_witness :
    (∀ pr ∈ (⟨"s", [("s-0001", ⟨"s-0001", "s", "ANY", "", true⟩),
        ("s-0002", ⟨"s-0002", "s", "ANY", "", true⟩)],
        [("s-0001", "ANY"), ("s-0002", "ANY")], 3⟩ : TemplateLibrary String).templates,
      alistLookup pr.1 [("s-0001", "ANY"), ("s-0002", "ANY")] = toyCompile pr.2.regex ∧
        (toyCompile pr.2.regex).isSome = true) ∧
    libMatch toyCompile toyFullmatch
      ⟨"s", [("s-0001", ⟨"s-0001", "s", "ANY", "", true⟩),
        ("s-0002", ⟨"s-0002", "s", "ANY", "", true⟩)],
        [("s-0001", "ANY"), ("s-0002", "ANY")], 3⟩ ⟨"x", "x"⟩ =
      (⟨"s", [("s-0001", ⟨"s-0001", "s", "ANY", "", true⟩),
        ("s-0002", ⟨"s-0002", "s", "ANY", "", true⟩)],
        [("s-0001", "ANY"), ("s-0002", "ANY")], 3⟩,
       .ok (some (⟨"s-0001", "s", "ANY", "", true⟩, [("msg", "x")]))) := by
  refine ⟨by decide, ?_⟩
  rw [(C2_match_first_hit toyCompile toyFullmatch
    ⟨"s", [("s-0001", ⟨"s-0001", "s", "ANY", "", true⟩),
      ("s-0002", ⟨"s-0002", "s", "ANY", "", true⟩)],
      [("s-0001", "ANY"), ("s-0002", "ANY")], 3⟩ ⟨"x", "x"⟩ (by decide)).1]
  decide

/-- C4 counterexample: TemplateLibrary.add executes the dict store
before re.compile, so a record whose pattern "(" fails to compile is
already stored (under the freshly assigned id s-0001) when the
PatternError is raised — refuting "the candidate is never stored". -/
theorem C4_counterexample :
    (addRecord toyCompile ⟨"s", [], [], 1⟩ ⟨"", "s", "(", "", true⟩).2 =
      .error ⟨"("⟩ ∧
    alistLookup "s-0001"
        (addRecord toyCompile ⟨"s", [], [], 1⟩ ⟨"", "s", "(", "", true⟩).1.templates =
      some ⟨"s-0001", "s", "(", "", true⟩ := by
  decide

/-- C4 amended: add assigns an id exactly when the record's id is
absent, compiles the pattern text, and fails with PatternError when it
cannot compile; on success the record is stored and activated with its
matcher cached; on failure, however, the record has already been
inserted into the templates dict (only the compiled cache is left
unchanged), and callers do not catch the error: a proposed pattern that
is approved by review but fails to compile makes process_line propagate
the exception instead of treating the candidate as rejected. -/
theorem C4_add_pattern_error {Pat : Type} (compile : String → Option Pat) :
    (∀ (lib : TemplateLibrary Pat) (record : TemplateRecord) (p : Pat),
      record.template_id = "" → compile record.regex = some p →
      addRecord compile lib record =
        ({ lib with
            sequence := lib.sequence + 1
            templates := alistInsert (mkId lib.source_id lib.sequence)
              { record with template_id := mkId lib.source_id lib.sequence } lib.templates
            compiled := alistInsert (mkId lib.source_id lib.sequence) p lib.compiled },
          .ok { record with template_id := mkId lib.source_id lib.sequence })) ∧
    (∀ (lib : TemplateLibrary Pat) (record : TemplateRecord),
      compile record.regex = none →
      (addRecord compile lib record).2 = .error ⟨record.regex⟩ ∧
      alistLookup
          (if record.template_id = "" then mkId lib.source_id lib.sequence
           else record.template_id)
          (addRecord compile lib record).1.templates =
        some { record with template_id :=
          (if record.template_id = "" then mkId lib.source_id lib.sequence
           else record.template_id) } ∧
      (addRecord compile lib record).1.compiled = lib.compiled) ∧
    (∀ (fullmatch : Pat → String → Option (List (String × String))) (O : AgentOracle)
        (line : ProcessedLogLine) (st : EngineState Pat),
      (O.review O.derive.regex).approved = true → compile O.derive.regex = none →
      (processLine compile fullmatch O line st).2.2 = .error ⟨O.derive.regex⟩) := by
  refine ⟨?_, ?_, ?_⟩
  · intro lib record p hid hp
    simp only [addRecord, allocateId, hid, if_true]
    simp only [hp]
  · intro lib record hcomp
    by_cases hid : record.template_id = ""
    · simp only [addRecord, allocateId, hid, if_true]
      simp only [hcomp]
      simp [alistLookup_insert_self]
    · simp only [addRecord, allocateId, hid, if_false]
      obtain ⟨tid, src, rgx, nts, act⟩ := record
      simp only at hcomp ⊢
      simp only [hcomp]
      simp [alistLookup_insert_self]
  · intro fullmatch O line st happr hcomp
    simp only [processLine, happr, if_true, learnApproved, detectConflicts, hcomp,
      List.isEmpty_nil, if_true, addRecord, allocateId]

/-- Witness for C4's amended theorem: the invalid pattern "(" raises but
is stored under the assigned id, and the compiled cache is unchanged. -/
theorem C4_witness :
    toyCompile "(" = none ∧
    ((addRecord toyCompile ⟨"s", [], [], 1⟩ ⟨"", "s", "(", "", true⟩).2 =
        .error ⟨"("⟩ ∧
      alistLookup
          (if ("" : String) = "" then mkId "s" 1 else "")
          (addRecord toyCompile ⟨"s", [], [], 1⟩ ⟨"", "s", "(", "", true⟩).1.templates =
        some ⟨(if ("" : String) = "" then mkId "s" 1 else ""), "s", "(", "", true⟩ ∧
      (addRecord toyCompile ⟨"s", [], [], 1⟩ ⟨"", "s", "(", "", true⟩).1.compiled = []) :=
  ⟨by decide, (C4_add_pattern_error toyCompile).2.1 ⟨"s", [], [], 1⟩
    ⟨"", "s", "(", "", true⟩ (by decide)⟩

/-- C5: when the reviewer rejects the proposal, the pipeline requests
exactly one refinement (refine count 1 in the trace) and re-validates
the refined pattern (review count 2); if that is also rejected the
outcome is "rejected" with the second report's issues joined, the
escalation counter is incremented by exactly 1, and nothing else
changes: the template library, example cache and task queue are those
of the incoming state. -/
theorem C5_rejected_after_one_repair {Pat : Type} (compile : String → Option Pat)
    (fullmatch : Pat → String → Option (List (String × String)))
    (O : AgentOracle) (line : ProcessedLogLine) (st : EngineState Pat)
    (r : String)
    (h1 : (O.review O.derive.regex).approved = false)
    (h2 : O.refine = .ok r)
    (h3 : (O.review r).approved = false) :
    processLine compile fullmatch O line st =
      ({ st with metrics :=
          { st.metrics with escalations := st.metrics.escalations + 1 } },
        ⟨1, 2, 1, 0⟩,
        .ok ⟨"rejected", none, String.intercalate "; " (O.review r).issues⟩) ∧
    (processLine compile fullmatch O line st).1.library = st.library ∧
    (processLine compile fullmatch O line st).1.examples = st.examples ∧
    (processLine compile fullmatch O line st).1.service = st.service := by
  have hmain : processLine compile fullmatch O line st =
      ({ st with metrics :=
          { st.metrics with escalations := st.metrics.escalations + 1 } },
        ⟨1, 2, 1, 0⟩,
        .ok ⟨"rejected", none, String.intercalate "; " (O.review r).issues⟩) := by
    simp only [processLine, h1, Bool.false_eq_true, if_false, h2, learnApproved, h3]
  exact ⟨hmain, by rw [hmain], by rw [hmain], by rw [hmain]⟩

/-- Witness for C5: a reviewer that rejects everything, with one
successful refinement to "B", yields the rejected outcome, one review
of the proposal plus one of the refinement, one refine request, an
escalation count of 1 and an unchanged library. -/
theorem C5_witness :
    ((AgentOracle.mk ⟨"A", ""⟩ (fun _ => ⟨false, ["iss"], [], ""⟩)
        (.ok "B") (.error "x")).review
      (AgentOracle.mk ⟨"A", ""⟩ (fun _ => ⟨false, ["iss"], [], ""⟩)
        (.ok "B") (.error "x")).derive.regex).approved = false ∧
    processLine toyCompile toyFullmatch
      (AgentOracle.mk ⟨"A", ""⟩ (fun _ => ⟨false, ["iss"], [], ""⟩) (.ok "B") (.error "x"))
      ⟨"u", "u"⟩ ⟨⟨"s", [], [], 1⟩, [], ⟨0, 0, 0, 0⟩, ⟨[], 1⟩⟩ =
      (⟨⟨"s", [], [], 1⟩, [], ⟨0, 0, 0, 1⟩, ⟨[], 1⟩⟩, ⟨1, 2, 1, 0⟩,
        .ok ⟨"rejected", none, "iss"⟩) := by
  refine ⟨by decide, ?_⟩
  rw [(C5_rejected_after_one_repair toyCompile toyFullmatch
    (AgentOracle.mk ⟨"A", ""⟩ (fun _ => ⟨false, ["iss"], [], ""⟩) (.ok "B") (.error "x"))
    ⟨"u", "u"⟩ ⟨⟨"s", [], [], 1⟩, [], ⟨0, 0, 0, 0⟩, ⟨[], 1⟩⟩ "B"
    (by decide) rfl (by decide)).1]
  decide

/-- C6: for every conflict-resolution decision payload, if the payload
omits the new pattern text (absent or blank after stripping), or the
stripped pattern fails the extra validation pass, or the decision is
neither replace_conflicting nor refine_candidate, then
_apply_conflict_plan escalates: the library and example cache are
untouched (no template stored), the learned counter is unchanged, the
escalation counter is incremented by one, exactly one template_conflict
task is enqueued carrying the offending plan verbatim, and the outcome
is "escalated". -/
theorem C6_bad_plan_escalates {Pat : Type} (compile : String → Option Pat)
    (O : AgentOracle) (plan : ConflictPlan) (candidate : TemplateRecord)
    (line : ProcessedLogLine) (st : EngineState Pat) (tr : CallTrace)
    (h : plan.new_regex = none ∨
         (∃ s, plan.new_regex = some s ∧ pyStrip s = "") ∨
         (∃ s, plan.new_regex = some s ∧ pyStrip s ≠ "" ∧
           (O.review (pyStrip s)).approved = false) ∨
         (∃ s, plan.new_regex = some s ∧ pyStrip s ≠ "" ∧
           (O.review (pyStrip s)).approved = true ∧
           plan.decision ≠ some "replace_conflicting" ∧
           plan.decision ≠ some "refine_candidate")) :
    ∃ c desc detail tr2,
      applyConflictPlan compile O plan candidate line st tr =
        (escalate st c line (.plan plan) desc, tr2, .ok ⟨"escalated", none, detail⟩) ∧
      (escalate st c line (.plan plan) desc).library = st.library ∧
      (escalate st c line (.plan plan) desc).examples = st.examples ∧
      (escalate st c line (.plan plan) desc).metrics.escalations =
        st.metrics.escalations + 1 ∧
      (escalate st c line (.plan plan) desc).metrics.learned_templates =
        st.metrics.learned_templates ∧
      (escalate st c line (.plan plan) desc).service.queue =
        st.service.queue ++ [⟨"task-" ++ natDec st.service.counter, "template_conflict",
          desc, .escalation c (.plan plan) line.transformed, "pending", []⟩] := by
  rcases h with hnr | ⟨s, hs, hstrip⟩ | ⟨s, hs, hstrip, happr⟩ |
    ⟨s, hs, hstrip, happr, hd1, hd2⟩
  · refine ⟨candidate, "missing new_regex in conflict plan",
      "conflict plan missing regex", tr, ?_, rfl, rfl, rfl, rfl, rfl⟩
    simp only [applyConflictPlan, hnr]
  · refine ⟨candidate, "missing new_regex in conflict plan",
      "conflict plan missing regex", tr, ?_, rfl, rfl, rfl, rfl, rfl⟩
    simp only [applyConflictPlan, hs, hstrip, if_pos]
  · refine ⟨{ candidate with regex := pyStrip s },
      "refined regex rejected by validator", "validator rejected refined regex",
      { tr with reviews := tr.reviews + 1 }, ?_, rfl, rfl, rfl, rfl, rfl⟩
    simp only [applyConflictPlan, hs, if_neg hstrip, happr, Bool.false_eq_true, if_false]
  · refine ⟨{ candidate with regex := pyStrip s },
      "unsupported decision", "unsupported conflict decision",
      { tr with reviews := tr.reviews + 1 }, ?_, rfl, rfl, rfl, rfl, rfl⟩
    simp only [applyConflictPlan, hs, if_neg hstrip, happr, if_true, if_neg hd1, if_neg hd2]

/-- Witness for C6: an approving validator but an unsupported decision
"bogus" escalates with the plan attached and stores nothing. -/
theorem C6_witness :
    ((⟨some "bogus", some "x", "", []⟩ : ConflictPlan).new_regex = none ∨
      (∃ s, (⟨some "bogus", some "x", "", []⟩ : ConflictPlan).new_regex = some s ∧
        pyStrip s = "") ∨
      (∃ s, (⟨some "bogus", some "x", "", []⟩ : ConflictPlan).new_regex = some s ∧
        pyStrip s ≠ "" ∧
        ((AgentOracle.mk ⟨"A", ""⟩ (fun _ => ⟨true, [], [], ""⟩) (.error "e")
          (.error "e")).review (pyStrip s)).approved = false) ∨
      (∃ s, (⟨some "bogus", some "x", "", []⟩ : ConflictPlan).new_regex = some s ∧
        pyStrip s ≠ "" ∧
        ((AgentOracle.mk ⟨"A", ""⟩ (fun _ => ⟨true, [], [], ""⟩) (.error "e")
          (.error "e")).review (pyStrip s)).approved = true ∧
        (⟨some "bogus", some "x", "", []⟩ : ConflictPlan).decision ≠
          some "replace_conflicting" ∧
        (⟨some "bogus", some "x", "", []⟩ : ConflictPlan).decision ≠
          some "refine_candidate")) ∧
    ∃ c desc detail tr2,
      applyConflictPlan toyCompile
        (AgentOracle.mk ⟨"A", ""⟩ (fun _ => ⟨true, [], [], ""⟩) (.error "e") (.error "e"))
        ⟨some "bogus", some "x", "", []⟩ ⟨"", "s", "A", "", true⟩ ⟨"u", "u"⟩
        ⟨⟨"s", [], [], 1⟩, [], ⟨0, 0, 0, 0⟩, ⟨[], 1⟩⟩ ⟨1, 1, 0, 1⟩ =
        (escalate (⟨⟨"s", [], [], 1⟩, [], ⟨0, 0, 0, 0⟩, ⟨[], 1⟩⟩ : EngineState String)
          c ⟨"u", "u"⟩ (.plan ⟨some "bogus", some "x", "", []⟩) desc, tr2,
          .ok ⟨"escalated", none, detail⟩) ∧
      (escalate (⟨⟨"s", [], [], 1⟩, [], ⟨0, 0, 0, 0⟩, ⟨[], 1⟩⟩ : EngineState String)
        c ⟨"u", "u"⟩
        (.plan ⟨some "bogus", some "x", "", []⟩) desc).library = ⟨"s", [], [], 1⟩ := by
  have hyp : (⟨some "bogus", some "x", "", []⟩ : ConflictPlan).new_regex = none ∨
      (∃ s, (⟨some "bogus", some "x", "", []⟩ : ConflictPlan).new_regex = some s ∧
        pyStrip s = "") ∨
      (∃ s, (⟨some "bogus", some "x", "", []⟩ : ConflictPlan).new_regex = some s ∧
        pyStrip s ≠ "" ∧
        ((AgentOracle.mk ⟨"A", ""⟩ (fun _ => ⟨true, [], [], ""⟩) (.error "e")
          (.error "e")).review (pyStrip s)).approved = false) ∨
      (∃ s, (⟨some "bogus", some "x", "", []⟩ : ConflictPlan).new_regex = some s ∧
        pyStrip s ≠ "" ∧
        ((AgentOracle.mk ⟨"A", ""⟩ (fun _ => ⟨true, [], [], ""⟩) (.error "e")
          (.error "e")).review (pyStrip s)).approved = true ∧
        (⟨some "bogus", some "x", "", []⟩ : ConflictPlan).decision ≠
          some "replace_conflicting" ∧
        (⟨some "bogus", some "x", "", []⟩ : ConflictPlan).decision ≠
          some "refine_candidate") :=
    Or.inr (Or.inr (Or.inr ⟨"x", rfl, by decide, by decide, by decide, by decide⟩))
  refine ⟨hyp, ?_⟩
  obtain ⟨c, desc, detail, tr2, heq, hlib, _, _, _, _⟩ :=
    C6_bad_plan_escalates toyCompile
      (AgentOracle.mk ⟨"A", ""⟩ (fun _ => ⟨true, [], [], ""⟩) (.error "e") (.error "e"))
      ⟨some "bogus", some "x", "", []⟩ ⟨"", "s", "A", "", true⟩ ⟨"u", "u"⟩
      ⟨⟨"s", [], [], 1⟩, [], ⟨0, 0, 0, 0⟩, ⟨[], 1⟩⟩ ⟨1, 1, 0, 1⟩ hyp
  exact ⟨c, desc, detail, tr2, heq, hlib⟩



/-- Unfolding of one step of the replaced-ids loop. -/
theorem applyReplaced_cons {Pat : Type} (st : EngineState Pat) (hd : String)
    (tl : List String) :
    applyReplaced st (hd :: tl) = applyReplaced (replacedStep st hd) tl := rfl

/-- Record-dict shape after one deactivation. -/
theorem replacedStep_templates {Pat : Type} (st : EngineState Pat) (tid : String) :
    (replacedStep st tid).library.templates = st.library.templates.map
      (fun pr => if pr.1 = tid then (pr.1, { pr.2 with is_active := false }) else pr) := rfl

/-- Example-cache shape after one deactivation. -/
theorem replacedStep_examples {Pat : Type} (st : EngineState Pat) (tid : String) :
    (replacedStep st tid).examples = alistErase tid st.examples := rfl

/-- Unfolding of lookup over a cons cell. -/
theorem alistLookup_cons {α : Type} (k : String) (hd : String × α) (tl : List (String × α)) :
    alistLookup k (hd :: tl) = if hd.1 = k then some hd.2 else alistLookup k tl := rfl

/-- Deactivation rewrites the looked-up record at the target id to its
inactive copy. -/
theorem lookup_deactivateMap_self (tid : String) (ts : List (String × TemplateRecord)) :
    alistLookup tid (ts.map fun pr =>
      if pr.1 = tid then (pr.1, { pr.2 with is_active := false }) else pr) =
      (alistLookup tid ts).map fun r => { r with is_active := false } := by
  induction ts with
  | nil => rfl
  | cons hd tl ih =>
    simp only [List.map_cons, alistLookup_cons]
    by_cases h : hd.1 = tid
    · simp only [h, eq_self_iff_true, if_true, Option.map_some']
    · simp only [if_neg h]
      exact ih

/-- Deactivating one id leaves every other id's record unchanged. -/
theorem lookup_deactivateMap_ne (tid k : String) (ts : List (String × TemplateRecord))
    (h : tid ≠ k) :
    alistLookup tid (ts.map fun pr =>
      if pr.1 = k then (pr.1, { pr.2 with is_active := false }) else pr) =
      alistLookup tid ts := by
  induction ts with
  | nil => rfl
  | cons hd tl ih =>
    simp only [List.map_cons, alistLookup_cons]
    by_cases hk : hd.1 = k
    · have hne : ¬ hd.1 = tid := fun e => h (e.symm.trans hk)
      simp only [if_pos hk, alistLookup_cons, if_neg hne]
      exact ih
    · simp only [if_neg hk, alistLookup_cons]
      by_cases ht : hd.1 = tid
      · rw [if_pos ht, if_pos ht]
      · rw [if_neg ht, if_neg ht]
        exact ih

/-- An id absent from an association list stays absent after any
erase. -/
theorem lookup_none_erase {α : Type} (tid k : String) (l : List (String × α))
    (h : alistLookup tid l = none) : alistLookup tid (alistErase k l) = none := by
  induction l with
  | nil => rfl
  | cons hd tl ih =>
    simp only [alistLookup] at h
    by_cases ht : hd.1 = tid
    · rw [if_pos ht] at h
      exact absurd h (by simp)
    · rw [if_neg ht] at h
      simp only [alistErase]
      by_cases hk : hd.1 = k
      · rw [if_pos hk]
        exact h
      · rw [if_neg hk]
        simp only [alistLookup, if_neg ht]
        exact ih h

/-- Erasing preserves the key list as a sublist, hence key nodupness. -/
theorem alistErase_keys_sublist {α : Type} (k : String) (l : List (String × α)) :
    ((alistErase k l).map Prod.fst).Sublist (l.map Prod.fst) := by
  induction l with
  | nil => simp [alistErase]
  | cons hd tl ih =>
    by_cases hk : hd.1 = k
    · simp only [alistErase, if_pos hk, List.map_cons]
      exact List.Sublist.cons _ (List.Sublist.refl _)
    · simp only [alistErase, if_neg hk, List.map_cons]
      exact List.Sublist.cons₂ _ ih

/-- The replaced-ids loop never touches metrics, the task queue, the
source id, the sequence counter or the compiled cache. -/
theorem applyReplaced_frame {Pat : Type} : ∀ (ids : List String) (st : EngineState Pat),
    (applyReplaced st ids).metrics = st.metrics ∧
    (applyReplaced st ids).service = st.service ∧
    (applyReplaced st ids).library.source_id = st.library.source_id ∧
    (applyReplaced st ids).library.sequence = st.library.sequence ∧
    (applyReplaced st ids).library.compiled = st.library.compiled := by
  intro ids
  induction ids with
  | nil => intro st; exact ⟨rfl, rfl, rfl, rfl, rfl⟩
  | cons hd tl ih =>
    intro st
    rw [applyReplaced_cons]
    exact ih (replacedStep st hd)

/-- Ids not listed are untouched by the replaced-ids loop. -/
theorem applyReplaced_not_mem {Pat : Type} : ∀ (ids : List String) (st : EngineState Pat)
    (tid : String), tid ∉ ids →
    alistLookup tid (applyReplaced st ids).library.templates =
      alistLookup tid st.library.templates ∧
    alistLookup tid (applyReplaced st ids).examples = alistLookup tid st.examples := by
  intro ids
  induction ids with
  | nil => intro st tid _; exact ⟨rfl, rfl⟩
  | cons hd tl ih =>
    intro st tid h
    have hne : tid ≠ hd := fun e => h (e ▸ List.mem_cons_self hd tl)
    have htl : tid ∉ tl := fun e => h (List.mem_cons_of_mem hd e)
    rw [applyReplaced_cons]
    obtain ⟨h1, h2⟩ := ih (replacedStep st hd) tid htl
    constructor
    · rw [h1, replacedStep_templates]
      exact lookup_deactivateMap_ne tid hd st.library.templates hne
    · rw [h2, replacedStep_examples]
      exact alistLookup_erase_ne hd tid st.examples hne

/-- A deactivated-or-absent id stays deactivated-or-absent through the
rest of the replaced-ids loop. -/
theorem applyReplaced_preserves_inactive {Pat : Type} : ∀ (ids : List String)
    (st : EngineState Pat) (tid : String),
    (∀ r, alistLookup tid st.library.templates = some r → r.is_active = false) →
    (∀ r, alistLookup tid (applyReplaced st ids).library.templates = some r →
      r.is_active = false) := by
  intro ids
  induction ids with
  | nil => intro st tid h; exact h
  | cons hd tl ih =>
    intro st tid h
    rw [applyReplaced_cons]
    refine ih (replacedStep st hd) tid ?_
    intro r hr
    rw [replacedStep_templates] at hr
    by_cases hk : tid = hd
    · subst hk
      rw [lookup_deactivateMap_self] at hr
      cases hx : alistLookup tid st.library.templates with
      | none => rw [hx] at hr; exact absurd hr (by simp)
      | some r0 =>
        rw [hx, Option.map_some'] at hr
        cases hr
        rfl
    · rw [lookup_deactivateMap_ne tid hd _ hk] at hr
      exact h r hr

/-- An example-cache id once absent stays absent through the rest of
the replaced-ids loop. -/
theorem applyReplaced_preserves_none {Pat : Type} : ∀ (ids : List String)
    (st : EngineState Pat) (tid : String),
    alistLookup tid st.examples = none →
    alistLookup tid (applyReplaced st ids).examples = none := by
  intro ids
  induction ids with
  | nil => intro st tid h; exact h
  | cons hd tl ih =>
    intro st tid h
    rw [applyReplaced_cons]
    exact ih (replacedStep st hd) tid (lookup_none_erase tid hd _ h)

/-- Key nodupness of the example cache survives the replaced-ids
loop. -/
theorem applyReplaced_preserves_nodup {Pat : Type} : ∀ (ids : List String)
    (st : EngineState Pat),
    (st.examples.map Prod.fst).Nodup →
    ((applyReplaced st ids).examples.map Prod.fst).Nodup := by
  intro ids
  induction ids with
  | nil => intro st h; exact h
  | cons hd tl ih =>
    intro st h
    rw [applyReplaced_cons]
    exact ih (replacedStep st hd) ((alistErase_keys_sublist hd st.examples).nodup h)

/-- A listed id ends the replaced-ids loop deactivated (when present)
and pruned from the example cache. -/
theorem applyReplaced_mem {Pat : Type} : ∀ (ids : List String) (st : EngineState Pat)
    (tid : String), tid ∈ ids → (st.examples.map Prod.fst).Nodup →
    (∀ r, alistLookup tid (applyReplaced st ids).library.templates = some r →
      r.is_active = false) ∧
    alistLookup tid (applyReplaced st ids).examples = none := by
  intro ids
  induction ids with
  | nil => intro st tid h; exact absurd h (List.not_mem_nil tid)
  | cons hd tl ih =>
    intro st tid h hnd
    rw [applyReplaced_cons]
    by_cases hk : tid = hd
    · subst hk
      constructor
      · refine applyReplaced_preserves_inactive tl (replacedStep st tid) tid ?_
        intro r hr
        rw [replacedStep_templates, lookup_deactivateMap_self] at hr
        cases hx : alistLookup tid st.library.templates with
        | none => rw [hx] at hr; exact absurd hr (by simp)
        | some r0 =>
          rw [hx, Option.map_some'] at hr
          cases hr
          rfl
      · refine applyReplaced_preserves_none tl (replacedStep st tid) tid ?_
        rw [replacedStep_examples]
        exact alistLookup_erase_self tid st.examples hnd
    · have htl : tid ∈ tl := by
        rcases List.mem_cons.mp h with he | htl
        · exact absurd he hk
        · exact htl
      exact ih (replacedStep st hd) tid htl
        ((alistErase_keys_sublist hd st.examples).nodup hnd)

/-- TemplateLibrary.add on a record with an empty id: the id is
allocated from the sequence, the record stored and its compiled pattern
cached. -/
theorem addRecord_empty_ok {Pat : Type} (compile : String → Option Pat)
    (lib : TemplateLibrary Pat) (record : TemplateRecord) (p : Pat)
    (hid : record.template_id = "") (hp : compile record.regex = some p) :
    addRecord compile lib record =
      ({ lib with
          sequence := lib.sequence + 1
          templates := alistInsert (mkId lib.source_id lib.sequence)
            { record with template_id := mkId lib.source_id lib.sequence } lib.templates
          compiled := alistInsert (mkId lib.source_id lib.sequence) p lib.compiled },
        .ok { record with template_id := mkId lib.source_id lib.sequence }) := by
  simp only [addRecord, allocateId, hid, if_true]
  simp only [hp]

/-- C7 counterexample: the code never checks replaced_ids against the
store, so a replace_conflicting payload listing the very id the store
is about to allocate ("s-0001" on a fresh library) ends with that id
ACTIVE and present in the example cache — refuting "every id listed in
replacedIds is inactive and removed from the example cache" as stated. -/
theorem C7_counterexample :
    "s-0001" ∈ (⟨some "replace_conflicting", some "x", "", ["s-0001"]⟩ :
      ConflictPlan).replaced_ids ∧
    applyConflictPlan toyCompile
      (AgentOracle.mk ⟨"A", ""⟩ (fun _ => ⟨true, [], [], ""⟩) (.error "e") (.error "e"))
      ⟨some "replace_conflicting", some "x", "", ["s-0001"]⟩
      ⟨"", "s", "A", "", true⟩ ⟨"u", "u"⟩
      ⟨⟨"s", [], [], 1⟩, [], ⟨0, 0, 0, 0⟩, ⟨[], 1⟩⟩ ⟨1, 1, 0, 1⟩ =
      (⟨⟨"s", [("s-0001", ⟨"s-0001", "s", "x", "", true⟩)], [("s-0001", "x")], 2⟩,
        [("s-0001", ⟨"u", "u"⟩)], ⟨0, 0, 1, 0⟩, ⟨[], 1⟩⟩,
        ⟨1, 2, 0, 1⟩, .ok ⟨"replaced", some "s-0001", ""⟩) ∧
    alistLookup "s-0001"
      (applyConflictPlan toyCompile
        (AgentOracle.mk ⟨"A", ""⟩ (fun _ => ⟨true, [], [], ""⟩) (.error "e") (.error "e"))
        ⟨some "replace_conflicting", some "x", "", ["s-0001"]⟩
        ⟨"", "s", "A", "", true⟩ ⟨"u", "u"⟩
        ⟨⟨"s", [], [], 1⟩, [], ⟨0, 0, 0, 0⟩, ⟨[], 1⟩⟩ ⟨1, 1, 0, 1⟩).1.library.templates =
      some ⟨"s-0001", "s", "x", "", true⟩ := by
  refine ⟨by decide, by decide, by decide⟩

/-- C7 amended: after a replace_conflicting resolution whose final
pattern compiles, every id listed in replaced_ids OTHER THAN the id
freshly allocated to the candidate is inactive (whenever still present)
and absent from the example cache; the candidate's final (stripped)
pattern is stored as an active record under the fresh id with the
triggering line recorded as its example; every record whose id is
neither listed nor the fresh id — in particular every previously
inactive record — is unchanged; and the learned counter advances by
one.  The exclusion of the fresh id is forced by the code: replaced_ids
is never validated against the store (see the counterexample). -/
theorem C7_replace_conflicting_applied {Pat : Type} (compile : String → Option Pat)
    (O : AgentOracle) (plan : ConflictPlan) (candidate : TemplateRecord)
    (line : ProcessedLogLine) (st : EngineState Pat) (tr : CallTrace) (s : String) (p : Pat)
    (hid : candidate.template_id = "")
    (hact : candidate.is_active = true)
    (hs : plan.new_regex = some s)
    (hstrip : pyStrip s ≠ "")
    (happr : (O.review (pyStrip s)).approved = true)
    (hdec : plan.decision = some "replace_conflicting")
    (hcomp : compile (pyStrip s) = some p)
    (hnd : (st.examples.map Prod.fst).Nodup) :
    (applyConflictPlan compile O plan candidate line st tr).2.2 =
      .ok ⟨"replaced", some (mkId st.library.source_id st.library.sequence),
        plan.reasoning⟩ ∧
    (∀ tid ∈ plan.replaced_ids, tid ≠ mkId st.library.source_id st.library.sequence →
      (∀ r, alistLookup tid
          (applyConflictPlan compile O plan candidate line st tr).1.library.templates =
            some r → r.is_active = false) ∧
      alistLookup tid (applyConflictPlan compile O plan candidate line st tr).1.examples =
        none) ∧
    alistLookup (mkId st.library.source_id st.library.sequence)
        (applyConflictPlan compile O plan candidate line st tr).1.library.templates =
      some ⟨mkId st.library.source_id st.library.sequence, candidate.source_id,
        pyStrip s, candidate.notes, true⟩ ∧
    alistLookup (mkId st.library.source_id st.library.sequence)
        (applyConflictPlan compile O plan candidate line st tr).1.examples = some line ∧
    (∀ tid, tid ∉ plan.replaced_ids →
      tid ≠ mkId st.library.source_id st.library.sequence →
      alistLookup tid
          (applyConflictPlan compile O plan candidate line st tr).1.library.templates =
        alistLookup tid st.library.templates) ∧
    (applyConflictPlan compile O plan candidate line st tr).1.metrics.learned_templates =
      st.metrics.learned_templates + 1 := by
  obtain ⟨hmet, hsvc, hsrc, hseq, hcmp⟩ := applyReplaced_frame plan.replaced_ids st
  have hadd := addRecord_empty_ok compile (applyReplaced st plan.replaced_ids).library
    { candidate with regex := pyStrip s } p hid hcomp
  have hres : applyConflictPlan compile O plan candidate line st tr =
      ({ applyReplaced st plan.replaced_ids with
          library := { (applyReplaced st plan.replaced_ids).library with
            sequence := (applyReplaced st plan.replaced_ids).library.sequence + 1
            templates := alistInsert
              (mkId (applyReplaced st plan.replaced_ids).library.source_id
                (applyReplaced st plan.replaced_ids).library.sequence)
              { candidate with
                  regex := pyStrip s
                  template_id :=
                    mkId (applyReplaced st plan.replaced_ids).library.source_id
                      (applyReplaced st plan.replaced_ids).library.sequence }
              (applyReplaced st plan.replaced_ids).library.templates
            compiled := alistInsert
              (mkId (applyReplaced st plan.replaced_ids).library.source_id
                (applyReplaced st plan.replaced_ids).library.sequence) p
              (applyReplaced st plan.replaced_ids).library.compiled }
          examples := alistInsert
            (mkId (applyReplaced st plan.replaced_ids).library.source_id
              (applyReplaced st plan.replaced_ids).library.sequence) line
            (applyReplaced st plan.replaced_ids).examples
          metrics := { (applyReplaced st plan.replaced_ids).metrics with
            learned_templates :=
              (applyReplaced st plan.replaced_ids).metrics.learned_templates + 1 } },
        { tr with reviews := tr.reviews + 1 },
        .ok ⟨"replaced", some (mkId (applyReplaced st plan.replaced_ids).library.source_id
          (applyReplaced st plan.replaced_ids).library.sequence), plan.reasoning⟩) := by
    simp only [applyConflictPlan, hs, if_neg hstrip, happr, if_true, hdec,
      eq_self_iff_true, hadd]
  have hN2 : mkId (applyReplaced st plan.replaced_ids).library.source_id
      (applyReplaced st plan.replaced_ids).library.sequence =
      mkId st.library.source_id st.library.sequence := by
    rw [hsrc, hseq]
  refine ⟨?_, ?_, ?_, ?_, ?_, ?_⟩
  · rw [hres, hN2]
  · intro tid htid hne
    have hne2 : tid ≠ mkId (applyReplaced st plan.replaced_ids).library.source_id
        (applyReplaced st plan.replaced_ids).library.sequence := by
      rw [hN2]; exact hne
    obtain ⟨hm1, hm2⟩ := applyReplaced_mem plan.replaced_ids st tid htid hnd
    constructor
    · intro r hr
      rw [hres] at hr
      simp only at hr
      rw [alistLookup_insert_ne _ _ _ _ hne2] at hr
      exact hm1 r hr
    · rw [hres]
      simp only
      rw [alistLookup_insert_ne _ _ _ _ hne2]
      exact hm2
  · rw [hres]
    simp only
    rw [← hN2, alistLookup_insert_self]
    obtain ⟨ct, cs, cr, cn, ca⟩ := candidate
    simp only at hact
    subst hact
    rfl
  · rw [hres]
    simp only
    rw [← hN2, alistLookup_insert_self]
  · intro tid htid hne
    have hne2 : tid ≠ mkId (applyReplaced st plan.replaced_ids).library.source_id
        (applyReplaced st plan.replaced_ids).library.sequence := by
      rw [hN2]; exact hne
    rw [hres]
    simp only
    rw [alistLookup_insert_ne _ _ _ _ hne2]
    exact (applyReplaced_not_mem plan.replaced_ids st tid htid).1
  · rw [hres]
    simp only
    rw [hmet]

/-- Witness for C7's amended theorem: replacing s-0001 with the
stripped pattern "y" stores the candidate actively under the fresh id
s-0002 and prunes s-0001 from the example cache. -/
theorem C7_witness :
    toyCompile (pyStrip " y ") = some "y" ∧
    alistLookup (mkId "s" 2)
      (applyConflictPlan toyCompile
        (AgentOracle.mk ⟨"A", ""⟩ (fun _ => ⟨true, [], [], ""⟩) (.error "e") (.error "e"))
        ⟨some "replace_conflicting", some " y ", "r", ["s-0001"]⟩
        ⟨"", "s", "A", "", true⟩ ⟨"u", "u"⟩
        ⟨⟨"s", [("s-0001", ⟨"s-0001", "s", "ANY", "", true⟩)], [("s-0001", "ANY")], 2⟩,
          [("s-0001", ⟨"e", "e"⟩)], ⟨0, 0, 0, 0⟩, ⟨[], 1⟩⟩
        ⟨1, 1, 0, 1⟩).1.library.templates =
      some ⟨mkId "s" 2, "s", pyStrip " y ", "", true⟩ ∧
    alistLookup "s-0001"
      (applyConflictPlan toyCompile
        (AgentOracle.mk ⟨"A", ""⟩ (fun _ => ⟨true, [], [], ""⟩) (.error "e") (.error "e"))
        ⟨some "replace_conflicting", some " y ", "r", ["s-0001"]⟩
        ⟨"", "s", "A", "", true⟩ ⟨"u", "u"⟩
        ⟨⟨"s", [("s-0001", ⟨"s-0001", "s", "ANY", "", true⟩)], [("s-0001", "ANY")], 2⟩,
          [("s-0001", ⟨"e", "e"⟩)], ⟨0, 0, 0, 0⟩, ⟨[], 1⟩⟩
        ⟨1, 1, 0, 1⟩).1.examples = none := by
  have H := C7_replace_conflicting_applied toyCompile
    (AgentOracle.mk ⟨"A", ""⟩ (fun _ => ⟨true, [], [], ""⟩) (.error "e") (.error "e"))
    ⟨some "replace_conflicting", some " y ", "r", ["s-0001"]⟩
    ⟨"", "s", "A", "", true⟩ ⟨"u", "u"⟩
    ⟨⟨"s", [("s-0001", ⟨"s-0001", "s", "ANY", "", true⟩)], [("s-0001", "ANY")], 2⟩,
      [("s-0001", ⟨"e", "e"⟩)], ⟨0, 0, 0, 0⟩, ⟨[], 1⟩⟩
    ⟨1, 1, 0, 1⟩ " y " "y" (by decide) (by decide) rfl (by decide) (by decide) rfl
    (by decide) (by decide)
  exact ⟨by decide, H.2.2.1, (H.2.1 "s-0001" (by decide) (by decide)).2⟩

/-- TemplateLibrary.add on a record with an empty id whose pattern does
not compile raises with the record already stored. -/
theorem addRecord_empty_error {Pat : Type} (compile : String → Option Pat)
    (lib : TemplateLibrary Pat) (record : TemplateRecord)
    (hid : record.template_id = "") (hcmp : compile record.regex = none) :
    addRecord compile lib record =
      ({ lib with
          sequence := lib.sequence + 1
          templates := alistInsert (mkId lib.source_id lib.sequence)
            { record with template_id := mkId lib.source_id lib.sequence } lib.templates },
        .error ⟨record.regex⟩) := by
  simp only [addRecord, allocateId, hid, if_true]
  simp only [hcmp]

/-- Ids assigned by a successful run of add calls over empty-id records
all parse back to suffixes in [initial sequence, final sequence), and
are pairwise distinct. -/
theorem addMany_ids_spec {Pat : Type} (compile : String → Option Pat) :
    ∀ (recs : List TemplateRecord) (lib lib' : TemplateLibrary Pat) (ids : List String),
    (∀ r ∈ recs, r.template_id = "") → addMany compile lib recs = .ok (lib', ids) →
    lib.sequence ≤ lib'.sequence ∧
    (∀ id ∈ ids, ∃ n, parseSuffix id = some n ∧ lib.sequence ≤ n ∧ n < lib'.sequence) ∧
    ids.Nodup := by
  intro recs
  induction recs with
  | nil =>
    intro lib lib' ids _ hok
    simp only [addMany] at hok
    cases hok
    exact ⟨Nat.le_refl _, by simp, List.nodup_nil⟩
  | cons r rs ih =>
    intro lib lib' ids hempty hok
    have hidr : r.template_id = "" := hempty r (by simp)
    simp only [addMany] at hok
    cases hcmp : compile r.regex with
    | none =>
      rw [addRecord_empty_error compile lib r hidr hcmp] at hok
      exact absurd hok (by simp)
    | some p =>
      rw [addRecord_empty_ok compile lib r p hidr hcmp] at hok
      simp only at hok
      cases hrec : addMany compile
          { lib with
              sequence := lib.sequence + 1
              templates := alistInsert (mkId lib.source_id lib.sequence)
                { r with template_id := mkId lib.source_id lib.sequence } lib.templates
              compiled := alistInsert (mkId lib.source_id lib.sequence) p lib.compiled }
          rs with
      | error e =>
        rw [hrec] at hok
        exact absurd hok (by simp)
      | ok pr =>
        obtain ⟨lib2, ids2⟩ := pr
        rw [hrec] at hok
        simp only [Except.ok.injEq, Prod.mk.injEq] at hok
        obtain ⟨hlib, hids⟩ := hok
        subst hlib
        obtain ⟨hle, hall, hnd⟩ := ih _ _ ids2 (fun q hq => hempty q (by simp [hq])) hrec
        simp only at hle
        subst hids
        refine ⟨by omega, ?_, ?_⟩
        · intro id hid2
          rcases List.mem_cons.mp hid2 with hh | ht
          · subst hh
            exact ⟨lib.sequence, parseSuffix_mkId _ _, Nat.le_refl _, by omega⟩
          · obtain ⟨n, hp2, hlo, hhi⟩ := hall id ht
            dsimp only at hlo
            exact ⟨n, hp2, by omega, hhi⟩
        · refine List.nodup_cons.mpr ⟨?_, hnd⟩
          intro hmem
          obtain ⟨n, hp2, hlo, _⟩ := hall _ hmem
          dsimp only at hlo
          rw [parseSuffix_mkId] at hp2
          cases hp2
          omega

/-- TemplateLibrary._load leaves the sequence counter strictly above
every numeric id suffix it saw (non-numeric suffixes are skipped). -/
theorem loadGo_sequence {Pat : Type} (compile : String → Option Pat) :
    ∀ (recs : List TemplateRecord) (lib lib' : TemplateLibrary Pat),
    loadGo compile recs lib = .ok lib' →
    lib.sequence ≤ lib'.sequence ∧
    (∀ r ∈ recs, ∀ n, parseSuffix r.template_id = some n → n < lib'.sequence) := by
  intro recs
  induction recs with
  | nil =>
    intro lib lib' hok
    simp only [loadGo] at hok
    cases hok
    exact ⟨Nat.le_refl _, by simp⟩
  | cons r rs ih =>
    intro lib lib' hok
    simp only [loadGo] at hok
    cases hcmp : compile r.regex with
    | none =>
      rw [hcmp] at hok
      exact absurd hok (by simp)
    | some p =>
      rw [hcmp] at hok
      simp only at hok
      cases hps : parseSuffix r.template_id with
      | none =>
        rw [hps] at hok
        simp only at hok
        obtain ⟨hle, hall⟩ := ih _ lib' hok
        simp only at hle
        refine ⟨hle, ?_⟩
        intro q hq n hn
        rcases List.mem_cons.mp hq with hh | ht
        · subst hh
          rw [hps] at hn
          exact absurd hn (by simp)
        · exact hall q ht n hn
      | some m =>
        rw [hps] at hok
        simp only at hok
        obtain ⟨hle, hall⟩ := ih _ lib' hok
        simp only at hle
        refine ⟨by omega, ?_⟩
        intro q hq n hn
        rcases List.mem_cons.mp hq with hh | ht
        · subst hh
          rw [hps] at hn
          injection hn with hmn
          have h2 : m + 1 ≤ lib'.sequence :=
            le_trans (Nat.le_max_right lib.sequence (m + 1)) hle
          omega
        · exact hall q ht n hn

/-- C8: id allocation is unique and monotone.  allocate_id returns
"(sourceId)-(sequence zero-padded to 4 digits)" and advances the
sequence; past the padding width the number is emitted unpadded (the
function is total, so nothing is thrown) and ids still never collide
(mkId is injective in the sequence for a fixed source); any successful
run of add calls over records without explicit ids assigns pairwise
distinct ids; and after loading a persisted store (sequence recomputed
as max numeric suffix + 1, skipping non-numeric suffixes) the next
allocated id's numeric suffix strictly exceeds every numeric suffix
seen among the loaded records. -/
theorem C8_id_allocation_monotone {Pat : Type} (compile : String → Option Pat) :
    (∀ lib : TemplateLibrary Pat, allocateId lib =
      (lib.source_id ++ "-" ++ pad4 lib.sequence,
        { lib with sequence := lib.sequence + 1 })) ∧
    (∀ n, 10000 ≤ n → pad4 n = natDec n) ∧
    (∀ (src : String) (a b : Nat), mkId src a = mkId src b → a = b) ∧
    (∀ (recs : List TemplateRecord) (lib lib' : TemplateLibrary Pat) (ids : List String),
      (∀ r ∈ recs, r.template_id = "") →
      addMany compile lib recs = .ok (lib', ids) → ids.Nodup) ∧
    (∀ (src : String) (records : List TemplateRecord) (lib' : TemplateLibrary Pat),
      loadLib compile src records = .ok lib' →
      ∀ r ∈ records, ∀ n, parseSuffix r.template_id = some n →
        ∃ m, parseSuffix (allocateId lib').1 = some m ∧ n < m) := by
  refine ⟨fun lib => rfl, pad4_unpadded, fun src a b h => mkId_inj src h, ?_, ?_⟩
  · intro recs lib lib' ids hempty hok
    exact (addMany_ids_spec compile recs lib lib' ids hempty hok).2.2
  · intro src records lib' hok r hr n hn
    refine ⟨lib'.sequence, parseSuffix_mkId lib'.source_id lib'.sequence, ?_⟩
    exact (loadGo_sequence compile records _ lib' hok).2 r hr n hn

/-- Witness for C8: two empty-id adds assign the distinct ids s-0001
and s-0002, and after loading a record with suffix 7 the next allocated
id has suffix 8. -/
theorem C8_witness :
    (∀ r ∈ [(⟨"", "s", "a", "", true⟩ : TemplateRecord), ⟨"", "s", "b", "", true⟩],
      r.template_id = "") ∧
    addMany toyCompile ⟨"s", [], [], 1⟩
      [⟨"", "s", "a", "", true⟩, ⟨"", "s", "b", "", true⟩] =
      .ok (⟨"s", [("s-0001", ⟨"s-0001", "s", "a", "", true⟩),
        ("s-0002", ⟨"s-0002", "s", "b", "", true⟩)],
        [("s-0001", "a"), ("s-0002", "b")], 3⟩, ["s-0001", "s-0002"]) ∧
    (["s-0001", "s-0002"] : List String).Nodup ∧
    loadLib toyCompile "s" [⟨"s-0007", "s", "a", "", true⟩] =
      .ok ⟨"s", [("s-0007", ⟨"s-0007", "s", "a", "", true⟩)], [("s-0007", "a")], 8⟩ ∧
    ∃ m, parseSuffix (allocateId (⟨"s", [("s-0007", ⟨"s-0007", "s", "a", "", true⟩)],
      [("s-0007", "a")], 8⟩ : TemplateLibrary String)).1 = some m ∧ 7 < m := by
  refine ⟨by decide, by decide, ?_, by decide, ?_⟩
  · exact (C8_id_allocation_monotone toyCompile).2.2.2.1
      [⟨"", "s", "a", "", true⟩, ⟨"", "s", "b", "", true⟩] ⟨"s", [], [], 1⟩
      ⟨"s", [("s-0001", ⟨"s-0001", "s", "a", "", true⟩),
        ("s-0002", ⟨"s-0002", "s", "b", "", true⟩)],
        [("s-0001", "a"), ("s-0002", "b")], 3⟩ ["s-0001", "s-0002"]
      (by decide) (by decide)
  · exact (C8_id_allocation_monotone toyCompile).2.2.2.2 "s"
      [⟨"s-0007", "s", "a", "", true⟩]
      ⟨"s", [("s-0007", ⟨"s-0007", "s", "a", "", true⟩)], [("s-0007", "a")], 8⟩
      (by decide) ⟨"s-0007", "s", "a", "", true⟩ (by decide) 7 (by decide)

/-- C9 counterexample: the orchestrator records examples with
setdefault, so when a second line ("b") matches a template whose cache
entry already holds the first line ("a"), the entry is NOT updated to
the most recent line — it still holds "a". -/
theorem C9_counterexample :
    (libMatch toyCompile toyFullmatch
      ⟨"s", [("s-0001", ⟨"s-0001", "s", "ANY", "", true⟩)], [("s-0001", "ANY")], 2⟩
      ⟨"b", "b"⟩).2 =
      .ok (some (⟨"s-0001", "s", "ANY", "", true⟩, [("msg", "b")])) ∧
    alistLookup "s-0001"
      (phase1Step toyCompile toyFullmatch
        (AgentOracle.mk ⟨"A", ""⟩ (fun _ => ⟨false, [], [], ""⟩) (.error "e") (.error "e"))
        ⟨⟨"s", [("s-0001", ⟨"s-0001", "s", "ANY", "", true⟩)], [("s-0001", "ANY")], 2⟩,
          [("s-0001", ⟨"a", "a"⟩)], ⟨0, 0, 0, 0⟩, ⟨[], 1⟩⟩
        ⟨"b", "b"⟩).1.examples = some ⟨"a", "a"⟩ ∧
    (⟨"a", "a"⟩ : ProcessedLogLine) ≠ ⟨"b", "b"⟩ := by
  refine ⟨by decide, by decide, by decide⟩

/-- C9 amended: the example cache maps each template id to the line
that FIRST exemplified it this run.  On a match hit the orchestrator
setdefaults the entry: an existing entry is kept unchanged, an absent
entry is set to the current line, other ids are untouched, and the
matched/processed counters advance.  When a line triggers storage of a
new template (approved review, no conflicts, compiling pattern), the
fresh id's cache entry is set to that triggering line. -/
theorem C9_example_cache_records_first {Pat : Type} (compile : String → Option Pat)
    (fullmatch : Pat → String → Option (List (String × String))) :
    (∀ (O : AgentOracle) (st : EngineState Pat) (line : ProcessedLogLine)
        (r : TemplateRecord) (g : List (String × String)) (lib' : TemplateLibrary Pat),
      libMatch compile fullmatch st.library line = (lib', .ok (some (r, g))) →
      (phase1Step compile fullmatch O st line).2 = .ok () ∧
      (∀ e, alistLookup r.template_id st.examples = some e →
        alistLookup r.template_id (phase1Step compile fullmatch O st line).1.examples =
          some e) ∧
      (alistLookup r.template_id st.examples = none →
        alistLookup r.template_id (phase1Step compile fullmatch O st line).1.examples =
          some line) ∧
      (∀ k, k ≠ r.template_id →
        alistLookup k (phase1Step compile fullmatch O st line).1.examples =
          alistLookup k st.examples) ∧
      (phase1Step compile fullmatch O st line).1.metrics.matched_lines =
        st.metrics.matched_lines + 1 ∧
      (phase1Step compile fullmatch O st line).1.metrics.processed_lines =
        st.metrics.processed_lines + 1) ∧
    (∀ (O : AgentOracle) (st : EngineState Pat) (line : ProcessedLogLine) (p : Pat),
      (O.review O.derive.regex).approved = true →
      detectConflicts compile fullmatch O.derive.regex st.library st.examples = [] →
      compile O.derive.regex = some p →
      alistLookup (mkId st.library.source_id st.library.sequence)
        (processLine compile fullmatch O line st).1.examples = some line ∧
      (processLine compile fullmatch O line st).2.2 = .ok ⟨"stored",
        some (mkId st.library.source_id st.library.sequence),
        "stored without conflict"⟩) := by
  constructor
  · intro O st line r g lib' hm
    have hstep : phase1Step compile fullmatch O st line =
        ({ st with
            library := lib'
            examples := alistSetdefault r.template_id line st.examples
            metrics := { st.metrics with
              processed_lines := st.metrics.processed_lines + 1
              matched_lines := st.metrics.matched_lines + 1 } }, .ok ()) := by
      simp only [phase1Step, hm]
    refine ⟨by rw [hstep], ?_, ?_, ?_, by rw [hstep], by rw [hstep]⟩
    · intro e he
      rw [hstep]
      simp only
      rw [alistLookup_setdefault_present r.template_id line e st.examples he]
      exact he
    · intro he
      rw [hstep]
      simp only
      exact alistLookup_setdefault_absent r.template_id line st.examples he
    · intro k hk
      rw [hstep]
      simp only
      exact alistLookup_setdefault_ne r.template_id k line st.examples hk
  · intro O st line p happr hconf hp
    have hadd := addRecord_empty_ok compile st.library
      (⟨"", st.library.source_id, O.derive.regex, O.derive.reasoning, true⟩ :
        TemplateRecord) p rfl hp
    have hres : processLine compile fullmatch O line st =
        ({ st with
            library := { st.library with
              sequence := st.library.sequence + 1
              templates := alistInsert (mkId st.library.source_id st.library.sequence)
                ⟨mkId st.library.source_id st.library.sequence, st.library.source_id,
                  O.derive.regex, O.derive.reasoning, true⟩ st.library.templates
              compiled := alistInsert (mkId st.library.source_id st.library.sequence) p
                st.library.compiled }
            examples := alistInsert (mkId st.library.source_id st.library.sequence) line
              st.examples
            metrics := { st.metrics with
              learned_templates := st.metrics.learned_templates + 1 } },
          ⟨1, 1, 0, 0⟩,
          .ok ⟨"stored", some (mkId st.library.source_id st.library.sequence),
            "stored without conflict"⟩) := by
      simp only [processLine, happr, if_true, learnApproved, hconf, List.isEmpty_nil,
        if_true, hadd]
    constructor
    · rw [hres]
      simp only
      exact alistLookup_insert_self _ _ _
    · rw [hres]

/-- Witness for C9's amended theorem: a hit with no existing cache
entry records the matching line under the template's id. -/
theorem C9_witness :
    libMatch toyCompile toyFullmatch
      (⟨"s", [("s-0001", ⟨"s-0001", "s", "ANY", "", true⟩)], [("s-0001", "ANY")], 2⟩ :
        TemplateLibrary String) ⟨"b", "b"⟩ =
      (⟨"s", [("s-0001", ⟨"s-0001", "s", "ANY", "", true⟩)], [("s-0001", "ANY")], 2⟩,
        .ok (some (⟨"s-0001", "s", "ANY", "", true⟩, [("msg", "b")]))) ∧
    alistLookup "s-0001"
      (phase1Step toyCompile toyFullmatch
        (AgentOracle.mk ⟨"A", ""⟩ (fun _ => ⟨false, [], [], ""⟩) (.error "e") (.error "e"))
        ⟨⟨"s", [("s-0001", ⟨"s-0001", "s", "ANY", "", true⟩)], [("s-0001", "ANY")], 2⟩,
          [], ⟨0, 0, 0, 0⟩, ⟨[], 1⟩⟩ ⟨"b", "b"⟩).1.examples = some ⟨"b", "b"⟩ := by
  have H := (C9_example_cache_records_first toyCompile toyFullmatch).1
    (AgentOracle.mk ⟨"A", ""⟩ (fun _ => ⟨false, [], [], ""⟩) (.error "e") (.error "e"))
    ⟨⟨"s", [("s-0001", ⟨"s-0001", "s", "ANY", "", true⟩)], [("s-0001", "ANY")], 2⟩,
      [], ⟨0, 0, 0, 0⟩, ⟨[], 1⟩⟩ ⟨"b", "b"⟩
    ⟨"s-0001", "s", "ANY", "", true⟩ [("msg", "b")]
    ⟨"s", [("s-0001", ⟨"s-0001", "s", "ANY", "", true⟩)], [("s-0001", "ANY")], 2⟩
    (by decide)
  exact ⟨by decide, H.2.2.1 rfl⟩

/-- C10: add called with a non-empty template id that already names a
stored record silently overwrites that record and its compiled matcher
in place — no error is raised, the lookup now yields the new record and
new pattern, and no fresh id is allocated (the sequence counter is
unchanged); the sequence advances, allocating a fresh id, exactly when
the supplied record's id is empty. -/
theorem C10_add_overwrites_in_place {Pat : Type} (compile : String → Option Pat)
    (lib : TemplateLibrary Pat) (record old : TemplateRecord) (p : Pat)
    (hid : record.template_id ≠ "")
    (hold : alistLookup record.template_id lib.templates = some old)
    (hp : compile record.regex = some p) :
    addRecord compile lib record =
      ({ lib with
          templates := alistInsert record.template_id record lib.templates
          compiled := alistInsert record.template_id p lib.compiled },
        .ok record) ∧
    alistLookup record.template_id (addRecord compile lib record).1.templates =
      some record ∧
    alistLookup record.template_id (addRecord compile lib record).1.compiled = some p ∧
    (addRecord compile lib record).1.sequence = lib.sequence ∧
    (∀ rec2 : TemplateRecord, rec2.template_id = "" →
      (addRecord compile lib rec2).1.sequence = lib.sequence + 1) := by
  have hmain : addRecord compile lib record =
      ({ lib with
          templates := alistInsert record.template_id record lib.templates
          compiled := alistInsert record.template_id p lib.compiled },
        .ok record) := by
    simp only [addRecord, allocateId, if_neg hid]
    simp only [hp]
  refine ⟨hmain, ?_, ?_, by rw [hmain], ?_⟩
  · rw [hmain]
    simp only
    exact alistLookup_insert_self _ _ _
  · rw [hmain]
    simp only
    exact alistLookup_insert_self _ _ _
  · intro rec2 h2
    cases hc : compile rec2.regex with
    | some q => rw [addRecord_empty_ok compile lib rec2 q h2 hc]
    | none => rw [addRecord_empty_error compile lib rec2 h2 hc]

/-- Witness for C10: re-adding id t-0001 replaces the stored (inactive)
record and its cached matcher without error, keeping the sequence at 5;
an empty-id add advances it to 6. -/
theorem C10_witness :
    ("t-0001" : String) ≠ "" ∧
    alistLookup "t-0001"
      (⟨"t", [("t-0001", ⟨"t-0001", "t", "old", "", false⟩)], [("t-0001", "old")], 5⟩ :
        TemplateLibrary String).templates = some ⟨"t-0001", "t", "old", "", false⟩ ∧
    addRecord toyCompile
      ⟨"t", [("t-0001", ⟨"t-0001", "t", "old", "", false⟩)], [("t-0001", "old")], 5⟩
      ⟨"t-0001", "t", "new", "", true⟩ =
      (⟨"t", [("t-0001", ⟨"t-0001", "t", "new", "", true⟩)], [("t-0001", "new")], 5⟩,
        .ok ⟨"t-0001", "t", "new", "", true⟩) := by
  refine ⟨by decide, by decide, ?_⟩
  rw [(C10_add_overwrites_in_place toyCompile
    ⟨"t", [("t-0001", ⟨"t-0001", "t", "old", "", false⟩)], [("t-0001", "old")], 5⟩
    ⟨"t-0001", "t", "new", "", true⟩ ⟨"t-0001", "t", "old", "", false⟩ "new"
    (by decide) (by decide) (by decide)).1]
  decide
